import Mathlib

/-!
# DJ controller firmware: command processing and playlist

A shallow embedding of `src/lib/commands/commands.c`, `src/lib/playlist/playlist.c`,
`src/lib/display/display.c`, `src/lib/leds/leds.c` and the start-up part of
`src/djcontrollerarduino/src/main.c`.

Conventions of the embedding.

* `uint8_t` and `uint16_t` values are natural numbers; every operation that can wrap
  carries its `% 256` explicitly.
* A pointer that may be `NULL` is an `Option`; `none` is the null pointer.
* C strings are lists of character codes; `c_str` cuts a character array at its first NUL.
* The global variables of the modules are the fields of `State`.  Three fields are
  observation logs that the C program does not have: `frames` receives the content of
  `displayBuffer` at every call of `display_update` (the shift-register bit-banging itself
  is not modelled), `tx` receives every byte written to the UART data register, and
  `Playlist.oob` records that a store was made through `tracks[current_index]` with the
  index outside the allocated array.  Such a store is undefined behaviour in C; the
  embedding assumes that it lands outside the objects modelled here and only records it.
* Busy-wait delays (`_delay_ms`) have no effect on the modelled state.
* A `for` loop whose counter is a `uint8_t` is a fuel-indexed recursion; the loop of
  `update_playlist_tracks` does not terminate when `totalTracks = 255`, and the embedding
  returns `none` exactly in that case (`update_playlist_tracks` lives in `Option`).
-/

set_option maxRecDepth 100000

namespace DJController

/-! ## Data model (`playlist.h`, `commands.c`) -/

/-- The `Track` struct of `playlist.h`. -/
structure Track where
  name : List Nat
  number : Nat
  duration_sec : Nat
  isPlaying : Nat
deriving DecidableEq

/-- The `Playlist` struct of `playlist.h`.  `tracks` holds the content of every allocated
slot of the array (its length is the size of the allocation); `oob` is the observation flag
described in the header of this file. -/
structure Playlist where
  tracks : List Track
  capacity : Nat
  count : Nat
  current_index : Nat
  display_needs_update : Nat
  oob : Bool
deriving DecidableEq

/-- The global variables of `commands.c` (`isPlaying`, `currentTrack`, `totalTracks`,
`active_playlist`), of `display.c` (`displayBuffer`), the LED port and the two logs. -/
structure State where
  isPlaying : Nat
  currentTrack : Nat
  totalTracks : Nat
  active_playlist : Option Playlist
  displayBuffer : List Nat
  frames : List (List Nat)
  PORTB : Nat
  tx : List Nat
deriving DecidableEq

/-! ## Constants (`commands.h`, `leds.h`, `display.c`) -/

/-- The command byte `'P'`. -/
abbrev CMD_PLAY : Nat := 80
/-- The command byte `'S'`. -/
abbrev CMD_PAUSE : Nat := 83
/-- The command byte `'N'`. -/
abbrev CMD_NEXT_TRACK : Nat := 78
/-- The command byte `'B'`. -/
abbrev CMD_PREV_TRACK : Nat := 66
/-- The command byte `'F'`. -/
abbrev CMD_SEEK_FORWARD : Nat := 70
/-- The command byte `'R'`. -/
abbrev CMD_SEEK_BACKWARD : Nat := 82
/-- The command byte `'Q'`. -/
abbrev CMD_STATUS_REQUEST : Nat := 81
/-- The command byte `'T'`. -/
abbrev CMD_TRACK_COUNT_INC : Nat := 84
/-- The command byte `'D'`. -/
abbrev CMD_TRACK_COUNT_DEC : Nat := 68
/-- The command byte `'C'`. -/
abbrev CMD_CURRENT_TRACK_INC : Nat := 67
/-- The command byte `'V'`. -/
abbrev CMD_CURRENT_TRACK_DEC : Nat := 86
/-- The command byte `'b'`. -/
abbrev CMD_BEAT_DETECTED : Nat := 98
/-- The request byte `'Q'`. -/
abbrev CMD_REQUEST_STATUS : Nat := 81

/-- The play LED, PB2. -/
abbrev LED_PLAY_PIN : Nat := 2
/-- The track LED, PB3. -/
abbrev LED_TRACK_PIN : Nat := 3
/-- The seek LED, PB4. -/
abbrev LED_SEEK_PIN : Nat := 4
/-- The status LED, PB5. -/
abbrev LED_STATUS_PIN : Nat := 5

/-- The string literal `"PLAY"`. -/
def STR_PLAY : List Nat := [80, 76, 65, 89]
/-- The string literal `"PAUS"`. -/
def STR_PAUS : List Nat := [80, 65, 85, 83]
/-- The string literal `"INIT"`. -/
def STR_INIT : List Nat := [73, 78, 73, 84]
/-- The string literal `"FF"`. -/
def STR_FF : List Nat := [70, 70]
/-- The string literal `"RW"`. -/
def STR_RW : List Nat := [82, 87]

/-- The segment patterns of the digits `0`..`9`. -/
def DIGIT_PATTERNS : List Nat :=
  [0xC0, 0xF9, 0xA4, 0xB0, 0x99, 0x92, 0x82, 0xF8, 0x80, 0x90]

/-- The segment patterns of the letters `A`..`Z`. -/
def LETTER_PATTERNS : List Nat :=
  [0x88, 0x83, 0xC6, 0xA1, 0x86, 0x8E, 0xC2, 0x89, 0xCF, 0xE1, 0x8A, 0xC7, 0xEA,
   0xC8, 0xC0, 0x8C, 0x98, 0xAF, 0x92, 0x87, 0xC1, 0xC1, 0xD5, 0x89, 0x91, 0xA4]

/-! ## C library helpers -/

/-- The C string held by a character array: the characters before the first NUL. -/
def c_str (a : List Nat) : List Nat := a.takeWhile (fun c => c != 0)

/-- The output of `printf`'s `%02d` for an argument below 1000 (the arguments in this
program are `uint8_t` values). -/
def fmt02d (n : Nat) : List Nat :=
  if n < 10 then [48, 48 + n]
  else if n < 100 then [48 + n / 10, 48 + n % 10]
  else [48 + n / 100, 48 + n / 10 % 10, 48 + n % 10]

/-! ## `leds.c` -/

/-- The function `led_on`: `PORTB &= ~(1 << pin)` on the 8-bit port. -/
def led_on (s : State) (pin : Nat) : State :=
  { s with PORTB := s.PORTB &&& (0xFF ^^^ (1 <<< pin)) }

/-- The function `led_off`: `PORTB |= (1 << pin)` on the 8-bit port. -/
def led_off (s : State) (pin : Nat) : State :=
  { s with PORTB := (s.PORTB ||| (1 <<< pin)) % 256 }

/-- The function `leds_init`: the four LED lines are driven high (off). -/
def leds_init (s : State) : State :=
  { s with PORTB := (s.PORTB ||| ((1 <<< LED_PLAY_PIN) ||| (1 <<< LED_TRACK_PIN) |||
      (1 <<< LED_SEEK_PIN) ||| (1 <<< LED_STATUS_PIN))) % 256 }

/-- The function `leds_test`: the four LEDs are switched on. -/
def leds_test (s : State) : State :=
  led_on (led_on (led_on (led_on s LED_PLAY_PIN) LED_TRACK_PIN) LED_SEEK_PIN) LED_STATUS_PIN

/-! ## `display.c` -/

/-- The segment pattern that `display_string` stores for character `c`; a character that
is neither a digit, a letter nor a blank leaves the slot as it is (`old`). -/
def encode_char (c old : Nat) : Nat :=
  if 48 ≤ c ∧ c ≤ 57 then DIGIT_PATTERNS.getD (c - 48) 0
  else if 65 ≤ c ∧ c ≤ 90 then LETTER_PATTERNS.getD (c - 65) 0
  else if 97 ≤ c ∧ c ≤ 122 then LETTER_PATTERNS.getD (c - 97) 0
  else if c = 32 then 0xFF
  else old

/-- The function `display_string`: the four slots are blanked, then the first `min (strlen str) 4`
characters are encoded. -/
def display_string (s : State) (str : List Nat) : State :=
  { s with displayBuffer := (List.range 4).map (fun i =>
      match (c_str str)[i]? with
      | some c => encode_char c 0xFF
      | none => 0xFF) }

/-- The function `display_update`: one multiplexing pass over the four digits, logged in
`frames`. -/
def display_update (s : State) : State :=
  { s with frames := s.frames ++ [s.displayBuffer] }

/-- The loop `for (i = 0; i < n; i++) display_update(1);`. -/
def display_update_loop : Nat → State → State
  | 0, s => s
  | n + 1, s => display_update_loop n (display_update s)

/-- The function `display_message`: the text is shown for `display_time` refresh cycles,
then the buffer is set to `"PLAY"` or `"PAUS"` after `isPlaying`. -/
def display_message (s : State) (str : List Nat) (display_time : Nat) : State :=
  let s1 := display_string s str
  let s2 := display_update_loop display_time s1
  if s2.isPlaying ≠ 0 then display_string s2 STR_PLAY else display_string s2 STR_PAUS

/-! ## `usart.c` -/

/-- The function `transmit_byte`: the byte is written to the data register. -/
def transmit_byte (s : State) (data : Nat) : State :=
  { s with tx := s.tx ++ [data] }

/-! ## `playlist.c` -/

/-- The function `playlist_create` when both allocations succeed; `mem` is the
(uninitialised) content of the freshly allocated track array, one element per slot. -/
def playlist_create (capacity : Nat) (mem : List Track) : Playlist :=
  { tracks := mem, capacity := capacity, count := 0, current_index := 0,
    display_needs_update := 0, oob := false }

/-- The function `playlist_set_current_track`, returning the playlist and the `uint8_t` result. -/
def playlist_set_current_track (p : Option Playlist) (index : Nat) : Option Playlist × Nat :=
  match p with
  | none => (none, 0)
  | some pl =>
    if index ≥ pl.count then (some pl, 0)
    else (some { pl with current_index := index, display_needs_update := 1 }, 1)

/-- The function `playlist_set_playing`: `tracks[current_index].isPlaying = isPlaying`. -/
def playlist_set_playing (p : Option Playlist) (isPlaying : Nat) : Option Playlist :=
  match p with
  | none => none
  | some pl =>
    if pl.count = 0 then some pl
    else
      match pl.tracks[pl.current_index]? with
      | some t =>
        some { pl with
          tracks := pl.tracks.set pl.current_index { t with isPlaying := isPlaying },
          display_needs_update := 1 }
      | none => some { pl with oob := true, display_needs_update := 1 }

/-! ## `commands.c` -/

def commands_init (s : State) : State :=
  { s with isPlaying := 0, currentTrack := 1, totalTracks := 1 }

/-- The call `commands_set_playlist(&playlist)` with a non-null argument. -/
def commands_set_playlist (s : State) (playlist : Option Playlist) : State :=
  { s with active_playlist := playlist }

/-- The `Track new_track` built in the body of the loop of `update_playlist_tracks`. -/
def new_track (isPlaying currentTrack i : Nat) : Track :=
  { name := [84, 82] ++ fmt02d i,
    number := i,
    duration_sec := 180,
    isPlaying := if isPlaying ≠ 0 ∧ i = currentTrack then 1 else 0 }

/-- The loop `for (uint8_t i = 1; i <= totalTracks; i++)` of `update_playlist_tracks`,
entered with counter `i`; `none` when the fuel runs out. -/
def rebuild_loop (isPlaying currentTrack totalTracks : Nat) :
    Nat → Nat → Playlist → Option Playlist
  | 0, _, _ => none
  | fuel + 1, i, pl =>
    if i ≤ totalTracks then
      let t := new_track isPlaying currentTrack i
      let pl1 :=
        if pl.count < pl.capacity then
          { pl with
            tracks := pl.tracks.set pl.count t,
            oob := pl.oob || decide (pl.tracks.length ≤ pl.count),
            count := (pl.count + 1) % 256 }
        else pl
      rebuild_loop isPlaying currentTrack totalTracks fuel ((i + 1) % 256) pl1
    else some pl

/-- The function `update_playlist_tracks`.  The counter of the loop takes at most 256
values, so 256 iterations of fuel are exhausted only when the loop does not terminate. -/
def update_playlist_tracks (s : State) : Option State :=
  match s.active_playlist with
  | none => some s
  | some pl =>
    match rebuild_loop s.isPlaying s.currentTrack s.totalTracks 256 1 { pl with count := 0 } with
    | none => none
    | some pl1 =>
      if s.currentTrack ≤ s.totalTracks ∧ s.currentTrack > 0 then
        let pl2 := { pl1 with current_index := s.currentTrack - 1 }
        some { s with
          active_playlist := (playlist_set_current_track (some pl2) (s.currentTrack - 1)).1 }
      else some { s with active_playlist := some pl1 }

/-- The function `send_command`: the byte is transmitted, then `"S"` followed by the byte
is shown for 50 refresh cycles. -/
def send_command (s : State) (cmd : Nat) : State :=
  display_message (transmit_byte s cmd) [83, cmd, 0, 0, 0] 50

/-- The function `process_serial`; `rx` is the byte waiting in the receiver, `none` when
`is_data_available()` is false. -/
def process_serial (s : State) (rx : Option Nat) : Option State :=
  match rx with
  | none => some s
  | some cmd =>
    if cmd = CMD_PLAY then
      let s1 := { s with isPlaying := 1 }
      let s2 :=
        if s1.active_playlist.isSome then
          { s1 with active_playlist := playlist_set_playing s1.active_playlist 1 }
        else s1
      some (display_string (led_on s2 LED_PLAY_PIN) STR_PLAY)
    else if cmd = CMD_PAUSE then
      let s1 := { s with isPlaying := 0 }
      let s2 :=
        if s1.active_playlist.isSome then
          { s1 with active_playlist := playlist_set_playing s1.active_playlist 0 }
        else s1
      some (display_string (led_off s2 LED_PLAY_PIN) STR_PAUS)
    else if cmd = CMD_TRACK_COUNT_INC then
      let s1 := { s with totalTracks := (s.totalTracks + 1) % 256 }
      let s2 := if s1.totalTracks > 99 then { s1 with totalTracks := 99 } else s1
      (update_playlist_tracks s2).map fun s3 =>
        display_message s3 ([84] ++ fmt02d s3.totalTracks) 200
    else if cmd = CMD_TRACK_COUNT_DEC then
      let r :=
        if s.totalTracks > 1 then
          let s1 := { s with totalTracks := s.totalTracks - 1 }
          let s2 := if s1.currentTrack > s1.totalTracks then
            { s1 with currentTrack := s1.totalTracks } else s1
          update_playlist_tracks s2
        else some s
      r.map fun s3 => display_message s3 ([84] ++ fmt02d s3.totalTracks) 200
    else if cmd = CMD_CURRENT_TRACK_INC then
      let s1 :=
        if s.currentTrack < s.totalTracks then
          { s with currentTrack := (s.currentTrack + 1) % 256 }
        else { s with currentTrack := 1 }
      (update_playlist_tracks s1).map fun s2 =>
        display_message s2 ([84, 82] ++ fmt02d s2.currentTrack) 300
    else if cmd = CMD_CURRENT_TRACK_DEC then
      let s1 :=
        if s.currentTrack > 1 then { s with currentTrack := s.currentTrack - 1 }
        else { s with currentTrack := s.totalTracks }
      (update_playlist_tracks s1).map fun s2 =>
        display_message s2 ([84, 82] ++ fmt02d s2.currentTrack) 300
    else if cmd = CMD_NEXT_TRACK then
      let s1 :=
        if s.currentTrack < s.totalTracks then
          { s with currentTrack := (s.currentTrack + 1) % 256 }
        else { s with currentTrack := 1 }
      (update_playlist_tracks s1).map fun s2 =>
        send_command (display_message s2 ([84, 82] ++ fmt02d s2.currentTrack) 300)
          CMD_REQUEST_STATUS
    else if cmd = CMD_PREV_TRACK then
      let s1 :=
        if s.currentTrack > 1 then { s with currentTrack := s.currentTrack - 1 }
        else { s with currentTrack := s.totalTracks }
      (update_playlist_tracks s1).map fun s2 =>
        send_command (display_message s2 ([84, 82] ++ fmt02d s2.currentTrack) 300)
          CMD_REQUEST_STATUS
    else if cmd = CMD_BEAT_DETECTED then
      some (led_off (display_update_loop 50 (led_on s LED_STATUS_PIN)) LED_STATUS_PIN)
    else if cmd = CMD_SEEK_FORWARD then
      some (display_message s STR_FF 100)
    else if cmd = CMD_SEEK_BACKWARD then
      some (display_message s STR_RW 100)
    else if cmd = CMD_STATUS_REQUEST then
      some (display_message s ([84, 82] ++ fmt02d s.currentTrack) 200)
    else
      some (display_message s [63, cmd, 0, 0, 0] 100)

/-! ## `main.c` -/

/-- The state of the hardware registers and module variables at reset, before `main`
runs: the static initialisers of `commands.c` and `display.c`, no playlist, port low. -/
def reset_state : State :=
  { isPlaying := 0, currentTrack := 1, totalTracks := 1, active_playlist := none,
    displayBuffer := [0xFF, 0xFF, 0xFF, 0xFF], frames := [], PORTB := 0, tx := [] }

/-- The part of `main` that precedes the poll loop, with a successful
`playlist_create(20)`; `mem` is the content of the fresh track array. -/
def main_startup (mem : List Track) : State :=
  let s := leds_init reset_state
  let s := commands_init s
  let s := leds_test s
  let s := led_off (led_off (led_off (led_off s LED_PLAY_PIN) LED_TRACK_PIN) LED_SEEK_PIN)
    LED_STATUS_PIN
  let s := display_message s STR_INIT 300
  let s := commands_set_playlist s (some (playlist_create 20 mem))
  let s := display_string s STR_PAUS
  send_command s CMD_REQUEST_STATUS

/-- The bytes of a list are received one after the other, each handled by one call of
`process_serial`. -/
def run (s : State) : List Nat → Option State
  | [] => some s
  | b :: bs =>
    match process_serial s (some b) with
    | none => none
    | some s1 => run s1 bs

/-- The entries of a playlist: the first `count` slots of its track array. -/
def entries (pl : Playlist) : List Track := pl.tracks.take pl.count

/-- The three playback variables of a state: `(isPlaying, currentTrack, totalTracks)`. -/
def playback (s : State) : Nat × Nat × Nat := (s.isPlaying, s.currentTrack, s.totalTracks)

/-- The effect of one received byte on the triple `(isPlaying, currentTrack, totalTracks)`,
as read off the branches of `process_serial`; `process_serial_playback` proves that
`process_serial` computes it. -/
def playback_step (p : Nat × Nat × Nat) (cmd : Nat) : Nat × Nat × Nat :=
  let isP := p.1
  let ct := p.2.1
  let tt := p.2.2
  if cmd = CMD_PLAY then (1, ct, tt)
  else if cmd = CMD_PAUSE then (0, ct, tt)
  else if cmd = CMD_TRACK_COUNT_INC then
    (isP, ct, if (tt + 1) % 256 > 99 then 99 else (tt + 1) % 256)
  else if cmd = CMD_TRACK_COUNT_DEC then
    if tt > 1 then (isP, if ct > tt - 1 then tt - 1 else ct, tt - 1) else (isP, ct, tt)
  else if cmd = CMD_CURRENT_TRACK_INC ∨ cmd = CMD_NEXT_TRACK then
    (isP, if ct < tt then (ct + 1) % 256 else 1, tt)
  else if cmd = CMD_CURRENT_TRACK_DEC ∨ cmd = CMD_PREV_TRACK then
    (isP, if ct > 1 then ct - 1 else tt, tt)
  else (isP, ct, tt)

/-- The invariant of the playback variables stated in the data model:
`1 ≤ currentTrack ≤ totalTracks ≤ 99`. -/
def PlaybackInv (s : State) : Prop :=
  1 ≤ s.currentTrack ∧ s.currentTrack ≤ s.totalTracks ∧ s.totalTracks ≤ 99

/-- A track array of twenty zeroed slots, one possible content of the fresh allocation. -/
def blank_memory : List Track :=
  List.replicate 20 { name := [], number := 0, duration_sec := 0, isPlaying := 0 }

/-- The state in which the poll loop is entered when the fresh track array is zeroed. -/
def startup_state : State := main_startup blank_memory

/-- The playlist agrees with the playback variables `(isP, ct, tt)`: the array has the
twenty slots of the firmware, the playlist is either still empty or holds `min tt 20`
entries with `current_index = ct - 1`, and entry `k` is the track that
`update_playlist_tracks` builds for number `k + 1`. -/
def TracksSynced (isP ct tt : Nat) (pl : Playlist) : Prop :=
  pl.capacity = 20 ∧ pl.tracks.length = 20 ∧
  (pl.count = 0 ∨ (pl.count = min tt 20 ∧ pl.current_index = ct - 1)) ∧
  ∀ k, k < pl.count → pl.tracks[k]? = some (new_track isP ct (k + 1))

/-- The invariant of the states reached from start-up: the playback invariant, and a
non-null playlist that agrees with the playback variables. -/
def SystemInv (s : State) : Prop :=
  PlaybackInv s ∧
  ∃ pl, s.active_playlist = some pl ∧ TracksSynced s.isPlaying s.currentTrack s.totalTracks pl

/-! ## `display.c`: the content of the buffer -/

/-- The content that `display_string` gives the display buffer for the text `str`. -/
def encode_text (str : List Nat) : List Nat :=
  (List.range 4).map (fun i =>
    match (c_str str)[i]? with
    | some c => encode_char c 0xFF
    | none => 0xFF)

/-! ## `leds.c`, continued -/

/-- The function `led_toggle`: `PORTB ^= (1 << pin)` on the 8-bit port. -/
def led_toggle (s : State) (pin : Nat) : State :=
  { s with PORTB := (s.PORTB ^^^ (1 <<< pin)) % 256 }

/-- The function `flash_led_briefly`: on, busy-wait, off. -/
def flash_led_briefly (s : State) (pin : Nat) (_duration_ms : Nat) : State :=
  led_off (led_on s pin) pin

/-! ## `playlist.c`, continued -/

/-- The function `playlist_add_track`, returning the playlist and the `uint8_t` result;
the track pointer may be null. -/
def playlist_add_track (p : Option Playlist) (track : Option Track) : Option Playlist × Nat :=
  match p, track with
  | none, _ => (none, 0)
  | some pl, none => (some pl, 0)
  | some pl, some t =>
    if pl.count ≥ pl.capacity then (some pl, 0)
    else
      (some { pl with
          tracks := pl.tracks.set pl.count t,
          oob := pl.oob || decide (pl.tracks.length ≤ pl.count),
          count := (pl.count + 1) % 256 }, 1)

/-- The function `playlist_next_track`, returning the playlist and the `uint8_t` result. -/
def playlist_next_track (p : Option Playlist) : Option Playlist × Nat :=
  match p with
  | none => (none, 0)
  | some pl =>
    if pl.count ≤ 1 then (some pl, 0)
    else
      (some { pl with
          current_index := (pl.current_index + 1) % pl.count % 256,
          display_needs_update := 1 }, 1)

/-- The function `playlist_prev_track`, returning the playlist and the `uint8_t` result. -/
def playlist_prev_track (p : Option Playlist) : Option Playlist × Nat :=
  match p with
  | none => (none, 0)
  | some pl =>
    if pl.count ≤ 1 then (some pl, 0)
    else
      let pl1 :=
        if pl.current_index = 0 then { pl with current_index := (pl.count - 1) % 256 }
        else { pl with current_index := pl.current_index - 1 }
      (some { pl1 with display_needs_update := 1 }, 1)

/-! ## `buttons.c` -/

/-- The play button, PC1. -/
abbrev BUTTON_PLAY_PIN : Nat := 1
/-- The next button, PC2. -/
abbrev BUTTON_NEXT_PIN : Nat := 2
/-- The previous button, PC3. -/
abbrev BUTTON_PREV_PIN : Nat := 3

/-- The request byte `'P'`. -/
abbrev CMD_REQUEST_PLAY : Nat := 80
/-- The request byte `'S'`. -/
abbrev CMD_REQUEST_PAUSE : Nat := 83
/-- The request byte `'N'`. -/
abbrev CMD_REQUEST_NEXT : Nat := 78
/-- The request byte `'B'`. -/
abbrev CMD_REQUEST_PREV : Nat := 66
/-- The request byte `'F'`. -/
abbrev CMD_REQUEST_SEEK_FWD : Nat := 70
/-- The request byte `'R'`. -/
abbrev CMD_REQUEST_SEEK_BWD : Nat := 82

/-- The string literal `"RPAU"`. -/
def STR_RPAU : List Nat := [82, 80, 65, 85]
/-- The string literal `"RPLY"`. -/
def STR_RPLY : List Nat := [82, 80, 76, 89]
/-- The string literal `"RNXT"`. -/
def STR_RNXT : List Nat := [82, 78, 88, 84]
/-- The string literal `"RPRV"`. -/
def STR_RPRV : List Nat := [82, 80, 82, 86]
/-- The string literal `"SFWD"`. -/
def STR_SFWD : List Nat := [83, 70, 87, 68]
/-- The string literal `"SBWD"`. -/
def STR_SBWD : List Nat := [83, 66, 87, 68]

/-- The static variables of `buttons.c`. -/
structure Buttons where
  lastButtonPlay : Nat
  lastButtonNext : Nat
  lastButtonPrev : Nat
  buttonCooldown : Nat
deriving DecidableEq

/-- The static initialisers of `buttons.c`: the three buttons released, no cooldown. -/
def buttons_reset : Buttons :=
  { lastButtonPlay := 1, lastButtonNext := 1, lastButtonPrev := 1, buttonCooldown := 0 }

/-- The function `buttons_init`, on the static variables. -/
def buttons_init (b : Buttons) : Buttons := { b with buttonCooldown := 0 }

/-- The values of the input register `PINC` at the three `read_button` calls of one
`buttons_check`. -/
structure PinSamples where
  atPlay : Nat
  atNext : Nat
  atPrev : Nat
deriving DecidableEq

/-- The function `read_button` on a value of `PINC`: 0 when pressed, 1 when released. -/
def read_button (PINC pin : Nat) : Nat :=
  if PINC &&& (1 <<< pin) ≠ 0 then 1 else 0

/-- The function `buttons_check`. -/
def buttons_check (b : Buttons) (s : State) (pins : PinSamples) : Buttons × State :=
  if b.buttonCooldown > 0 then
    ({ b with buttonCooldown := b.buttonCooldown - 1 }, s)
  else
    let buttonPlay := read_button pins.atPlay BUTTON_PLAY_PIN
    let r1 : Buttons × State :=
      if buttonPlay = 0 ∧ b.lastButtonPlay = 1 then
        let s1 :=
          if s.isPlaying ≠ 0 then
            display_message (send_command s CMD_REQUEST_PAUSE) STR_RPAU 100
          else
            display_message (send_command s CMD_REQUEST_PLAY) STR_RPLY 100
        ({ b with buttonCooldown := 50 }, led_toggle s1 LED_PLAY_PIN)
      else (b, s)
    let b1 : Buttons := { r1.1 with lastButtonPlay := buttonPlay }
    let buttonNext := read_button pins.atNext BUTTON_NEXT_PIN
    let r2 : Buttons × State :=
      if buttonNext = 0 ∧ b1.lastButtonNext = 1 then
        let s2 := display_message (send_command r1.2 CMD_REQUEST_NEXT) STR_RNXT 100
        ({ b1 with buttonCooldown := 50 }, flash_led_briefly s2 LED_TRACK_PIN 100)
      else (b1, r1.2)
    let b2 : Buttons := { r2.1 with lastButtonNext := buttonNext }
    let buttonPrev := read_button pins.atPrev BUTTON_PREV_PIN
    let r3 : Buttons × State :=
      if buttonPrev = 0 ∧ b2.lastButtonPrev = 1 then
        let s3 := display_message (send_command r2.2 CMD_REQUEST_PREV) STR_RPRV 100
        ({ b2 with buttonCooldown := 50 }, flash_led_briefly s3 LED_TRACK_PIN 100)
      else (b2, r2.2)
    ({ r3.1 with lastButtonPrev := buttonPrev }, r3.2)

/-- Consecutive calls of `buttons_check`, one per element of the list. -/
def buttons_run (b : Buttons) (s : State) : List PinSamples → Buttons × State
  | [] => (b, s)
  | pins :: rest => buttons_run (buttons_check b s pins).1 (buttons_check b s pins).2 rest

/-! ## `potentiometer.c` -/

/-- The static variables of `potentiometer.c`. -/
structure Pot where
  baselineValue : Nat
  potInitialized : Nat
  seekCooldown : Nat
deriving DecidableEq

/-- The output of `printf`'s `%03d` for an argument below 1000. -/
def fmt03d (n : Nat) : List Nat := [48 + n / 100, 48 + n / 10 % 10, 48 + n % 10]

/-- The conversion `(int16_t)x` of a `uint16_t` value. -/
def to_int16 (x : Nat) : Int :=
  if x % 65536 < 32768 then ((x % 65536 : Nat) : Int) else ((x % 65536 : Nat) : Int) - 65536

/-- The value of an integer stored in an `int16_t` (two's complement). -/
def wrap_int16 (z : Int) : Int := (z + 32768) % 65536 - 32768

/-- The function `potentiometer_init`; `adc` is the conversion result of `read_adc`. -/
def potentiometer_init (adc : Nat) : Pot :=
  { baselineValue := adc, potInitialized := 0, seekCooldown := 0 }

/-- The function `potentiometer_check`; `adc` is the conversion result that `read_adc`
returns when it is called.  `abs` is the absolute value of the integers; it differs from
the C function only at `netChange = -32768`, which no pair of ADC readings produces. -/
def potentiometer_check (p : Pot) (s : State) (adc : Nat) : Pot × State :=
  if p.seekCooldown > 0 then
    ({ p with seekCooldown := p.seekCooldown - 1 }, s)
  else
    let currentValue := adc
    if p.potInitialized = 0 then
      ({ p with baselineValue := currentValue, potInitialized := 1 },
        display_message s ([80] ++ fmt03d (currentValue % 1000)) 300)
    else
      let netChange := wrap_int16 (to_int16 currentValue - to_int16 p.baselineValue)
      if netChange.natAbs ≥ 10 then
        let s1 :=
          if netChange > 0 then
            display_message (send_command s CMD_REQUEST_SEEK_FWD) STR_SFWD 100
          else
            display_message (send_command s CMD_REQUEST_SEEK_BWD) STR_SBWD 100
        let s2 := led_off (display_update_loop 30 (led_on s1 LED_SEEK_PIN)) LED_SEEK_PIN
        ({ p with baselineValue := currentValue, seekCooldown := 100 }, s2)
      else (p, s)

/-- Consecutive calls of `potentiometer_check`, one per ADC reading of the list. -/
def potentiometer_run (p : Pot) (s : State) : List Nat → Pot × State
  | [] => (p, s)
  | adc :: rest =>
    potentiometer_run (potentiometer_check p s adc).1 (potentiometer_check p s adc).2 rest

/-- The twelve command bytes that `process_serial` recognises. -/
def COMMAND_BYTES : List Nat :=
  [CMD_PLAY, CMD_PAUSE, CMD_NEXT_TRACK, CMD_PREV_TRACK, CMD_SEEK_FORWARD, CMD_SEEK_BACKWARD,
   CMD_STATUS_REQUEST, CMD_TRACK_COUNT_INC, CMD_TRACK_COUNT_DEC, CMD_CURRENT_TRACK_INC,
   CMD_CURRENT_TRACK_DEC, CMD_BEAT_DETECTED]

/-- A press edge of the play button at a call of `buttons_check`: the pin reads pressed
and the level recorded at the previous reading was released. -/
def play_edge (b : Buttons) (pins : PinSamples) : Bool :=
  decide (read_button pins.atPlay BUTTON_PLAY_PIN = 0 ∧ b.lastButtonPlay = 1)

/-- A press edge of the next button at a call of `buttons_check`. -/
def next_edge (b : Buttons) (pins : PinSamples) : Bool :=
  decide (read_button pins.atNext BUTTON_NEXT_PIN = 0 ∧ b.lastButtonNext = 1)

/-- A press edge of the previous button at a call of `buttons_check`. -/
def prev_edge (b : Buttons) (pins : PinSamples) : Bool :=
  decide (read_button pins.atPrev BUTTON_PREV_PIN = 0 ∧ b.lastButtonPrev = 1)

/-- The sample shows exactly the button on pin `pin` pressed (level 0) and the other two
buttons released (level 1). -/
def only_pressed (pin : Nat) (x : PinSamples) : Bool :=
  decide (read_button x.atPlay BUTTON_PLAY_PIN = (if pin = BUTTON_PLAY_PIN then 0 else 1) ∧
    read_button x.atNext BUTTON_NEXT_PIN = (if pin = BUTTON_NEXT_PIN then 0 else 1) ∧
    read_button x.atPrev BUTTON_PREV_PIN = (if pin = BUTTON_PREV_PIN then 0 else 1))

/-- The request byte that belongs to the button on pin `pin`: for the play button the
complement of `isPlaying`, `'N'` for the next button, `'B'` for the previous button. -/
def request_of (pin isPlaying : Nat) : Nat :=
  if pin = BUTTON_PLAY_PIN then
    (if isPlaying ≠ 0 then CMD_REQUEST_PAUSE else CMD_REQUEST_PLAY)
  else if pin = BUTTON_NEXT_PIN then CMD_REQUEST_NEXT
  else CMD_REQUEST_PREV

/-- A playlist of three entries positioned on the last one, for instantiating statements
about `playlist_next_track` and `playlist_prev_track`. -/
def three_track_playlist : Playlist :=
  { tracks := blank_memory, capacity := 20, count := 3, current_index := 2,
    display_needs_update := 0, oob := false }

/-! ## `potentiometer.c`: `map_value`, and `read_potentiometer_range` of `nim/src/main.c` -/

/-- The value of an integer stored in an `int32_t` (two's complement). -/
def wrap_int32 (z : Int) : Int := (z + 2147483648) % 4294967296 - 2147483648

/-- The function `map_value` on `int32_t` arguments.  Signed overflow and division by zero
are undefined in C; the embedding wraps every intermediate result to 32 bits and divides
with truncation (`Int.tdiv`, which gives 0 for a zero divisor). -/
def map_value (x in_min in_max out_min out_max : Int) : Int :=
  wrap_int32
    (wrap_int32 (Int.tdiv
      (wrap_int32 (wrap_int32 (x - in_min) * wrap_int32 (out_max - out_min)))
      (wrap_int32 (in_max - in_min))) + out_min)

/-- The value that `read_potentiometer_range` returns for the ADC reading `pot_value`:
`(uint8_t)map_value(pot_value, 0, 1023, min_val, max_val)`. -/
def read_potentiometer_range (min_val max_val pot_value : Nat) : Nat :=
  ((map_value pot_value 0 1023 min_val max_val) % 256).toNat

/-! ## `utils.c`: `parseTimeString` -/

/-- The function `isdigit` on a character code. -/
def isdigit (c : Nat) : Bool := decide (48 ≤ c ∧ c ≤ 57)

/-- The function `parseTimeString`; `timeStr` is the character array, `minutes` and
`seconds` are the values behind the two output pointers before the call.  The result is
the return value and the values behind the two pointers after the call. -/
def parseTimeString (timeStr : List Nat) (minutes seconds : Nat) : Nat × Nat × Nat :=
  let str := c_str timeStr
  if str.length < 5 then (0, minutes, seconds)
  else if str.getD 2 0 ≠ 58 then (0, minutes, seconds)
  else if !isdigit (str.getD 0 0) || !isdigit (str.getD 1 0) ||
      !isdigit (str.getD 3 0) || !isdigit (str.getD 4 0) then (0, minutes, seconds)
  else
    let minutes1 := ((str.getD 0 0 - 48) * 10 + (str.getD 1 0 - 48)) % 256
    let seconds1 := ((str.getD 3 0 - 48) * 10 + (str.getD 4 0 - 48)) % 256
    if minutes1 > 99 ∨ seconds1 > 59 then (0, minutes1, seconds1)
    else (1, minutes1, seconds1)

/-! ## `random.c` -/

/-- The struct `random_state_t`: the four 64-bit words of the generator and the seeded
flag. -/
structure random_state_t where
  state0 : Nat
  state1 : Nat
  state2 : Nat
  state3 : Nat
  is_seeded : Bool
deriving DecidableEq

/-- The number of values of a `uint64_t`. -/
def UINT64_MOD : Nat := 18446744073709551616

/-- The function `splitmix64`: the result and the updated seed word. -/
def splitmix64 (x : Nat) : Nat × Nat :=
  let x1 := (x + 0x9E3779B97F4A7C15) % UINT64_MOD
  let z := x1
  let z := ((z ^^^ (z >>> 30)) * 0xBF58476D1CE4E5B9) % UINT64_MOD
  let z := ((z ^^^ (z >>> 27)) * 0x94D049BB133111EB) % UINT64_MOD
  (z ^^^ (z >>> 31), x1)

/-- The function `random_init_with_seed`. -/
def random_init_with_seed (seed : Nat) : random_state_t :=
  let r0 := splitmix64 seed
  let r1 := splitmix64 r0.2
  let r2 := splitmix64 r1.2
  let r3 := splitmix64 r2.2
  { state0 := r0.1, state1 := r1.1, state2 := r2.1, state3 := r3.1, is_seeded := true }

/-- The function `random_init`; `now` is the value of `time(NULL)`. -/
def random_init (now : Nat) : random_state_t := random_init_with_seed (now % UINT64_MOD)

/-- The function `rotl` on 64-bit words. -/
def rotl (x k : Nat) : Nat := ((x <<< k) % UINT64_MOD) ||| (x >>> (64 - k))

/-- The function `random_uint64` (xoshiro256**): the result and the new state; `now` is
the value `time(NULL)` would give if the state is not seeded yet. -/
def random_uint64 (st : random_state_t) (now : Nat) : Nat × random_state_t :=
  let st := if st.is_seeded then st else random_init now
  let result := (rotl ((st.state1 * 5) % UINT64_MOD) 7 * 9) % UINT64_MOD
  let t := (st.state1 <<< 17) % UINT64_MOD
  let s2 := st.state2 ^^^ st.state0
  let s3 := st.state3 ^^^ st.state1
  let s1 := st.state1 ^^^ s2
  let s0 := st.state0 ^^^ s3
  let s2 := s2 ^^^ t
  let s3 := rotl s3 45
  (result, { state0 := s0, state1 := s1, state2 := s2, state3 := s3,
             is_seeded := st.is_seeded })

/-- The loop `do { r = random_uint64(state); } while (r >= limit);` of
`random_int_range`; `none` when the fuel runs out before a value is accepted. -/
def rejection_loop (limit now : Nat) : Nat → random_state_t → Option (Nat × random_state_t)
  | 0, _ => none
  | fuel + 1, st =>
    if (random_uint64 st now).1 ≥ limit then
      rejection_loop limit now fuel (random_uint64 st now).2
    else some (random_uint64 st now)

/-- Conversion to an `int` of `bits` bits (two's complement wrap-around). -/
def wrap_int (bits : Nat) (z : Int) : Int :=
  (z + 2 ^ (bits - 1)) % (2 * 2 ^ (bits - 1)) - 2 ^ (bits - 1)

/-- The function `random_int_range` for an `int` of `int_bits` bits (16 on the AVR, 32 on a
host): the result and the new state, `none` when the rejection loop does not accept a value
within `fuel` draws. -/
def random_int_range (int_bits fuel : Nat) (st : random_state_t) (now : Nat)
    (min max : Int) : Option (Int × random_state_t) :=
  let lo := if min > max then max else min
  let hi := if min > max then min else max
  let range := ((wrap_int int_bits (hi - lo) % 18446744073709551616).toNat + 1) % UINT64_MOD
  let scale := 0xFFFFFFFFFFFFFFFF / range
  let limit := (range * scale) % UINT64_MOD
  match rejection_loop limit now fuel st with
  | none => none
  | some (r, st1) =>
    some (wrap_int int_bits (lo + wrap_int int_bits ((r / scale : Nat) : Int)), st1)

/-! ## `playlist.c`: `playlist_check_update` -/

/-- The function `playlist_check_update` on the playlist of the firmware (the pointer of
`main` and `active_playlist` are the same object).  `stray` is the byte that the read of
`tracks[current_index].number` finds when the index is outside the allocated array. -/
def playlist_check_update (s : State) (stray : Nat) : State :=
  match s.active_playlist with
  | none => s
  | some pl =>
    if pl.display_needs_update = 0 then s
    else
      let pl1 := { pl with display_needs_update := 0 }
      let s1 := { s with active_playlist := some pl1 }
      if pl1.count = 0 then s1
      else
        let number :=
          match pl1.tracks[pl1.current_index]? with
          | some t => t.number
          | none => stray
        display_message s1 ([84, 82] ++ fmt02d number) 200

/-! ## `djcontrollerarduino/src/main.c`: the timer interrupt and the poll loop -/

/-- The two variables shared with the timer interrupt. -/
structure Beat where
  beat_counter : Nat
  beat_detected : Nat
deriving DecidableEq

/-- The static initialisers of `beat_counter` and `beat_detected`. -/
def beat_reset : Beat := { beat_counter := 0, beat_detected := 0 }

/-- The interrupt service routine `ISR(TIMER1_COMPA_vect)`; `beat_counter` is a
`uint16_t`. -/
def ISR (b : Beat) : Beat :=
  let b1 : Beat := { b with beat_counter := (b.beat_counter + 1) % 65536 }
  if b1.beat_counter % 500 = 0 then
    if b1.beat_counter % 2000 = 0 then { b1 with beat_detected := 1 }
    else b1
  else b1

/-- The state after `n` invocations of the interrupt service routine. -/
def ISR_times : Nat → Beat → Beat
  | 0, b => b
  | n + 1, b => ISR (ISR_times n b)

/-- All the variables that the poll loop of `main` works on. -/
structure Controller where
  s : State
  buttons : Buttons
  pot : Pot
  beat : Beat
deriving DecidableEq

/-- What the hardware presents during one iteration of the poll loop: the pin samples,
the ADC conversion result, the byte waiting in the UART receiver (if any), and the byte
behind an out-of-array read of `playlist_check_update`. -/
structure LoopInputs where
  pins : PinSamples
  adc : Nat
  rx : Option Nat
  stray : Nat
deriving DecidableEq

/-- One iteration of the `while (1)` loop of `main` up to the call of
`playlist_check_update`, statement by statement; `none` when `process_serial` does not
return. -/
def loop_until_dirty_check (c : Controller) (inp : LoopInputs) : Option Controller :=
  let s1 := display_update c.s
  let r2 := buttons_check c.buttons s1 inp.pins
  let r3 := potentiometer_check c.pot r2.2 inp.adc
  match process_serial r3.2 inp.rx with
  | none => none
  | some s4 =>
    let r5 : Beat × State :=
      if c.beat.beat_detected ≠ 0 then
        ({ c.beat with beat_detected := 0 }, led_off (led_on s4 LED_STATUS_PIN) LED_STATUS_PIN)
      else (c.beat, s4)
    some { s := r5.2, buttons := r2.1, pot := r3.1, beat := r5.1 }

/-- One iteration of the `while (1)` loop of `main`: the statements up to the dirty-check,
then `playlist_check_update(playlist)`. -/
def main_loop_body (c : Controller) (inp : LoopInputs) : Option Controller :=
  (loop_until_dirty_check c inp).map
    (fun c5 => { c5 with s := playlist_check_update c5.s inp.stray })

/-- Successive iterations of the poll loop, one element of `inputs` each. -/
def loop_run : Controller → List LoopInputs → Option Controller
  | c, [] => some c
  | c, inp :: rest => (main_loop_body c inp).bind (fun c1 => loop_run c1 rest)

/-- The display refresh of one loop iteration. -/
def step_display (c : Controller) (_inp : LoopInputs) : Option Controller :=
  some { c with s := display_update c.s }

/-- The button edge detection of one loop iteration. -/
def step_buttons (c : Controller) (inp : LoopInputs) : Option Controller :=
  some { c with buttons := (buttons_check c.buttons c.s inp.pins).1,
                s := (buttons_check c.buttons c.s inp.pins).2 }

/-- The UART poll of one loop iteration: at most one byte, handled by `process_serial`. -/
def step_uart (c : Controller) (inp : LoopInputs) : Option Controller :=
  (process_serial c.s inp.rx).map (fun s1 => { c with s := s1 })

/-- The potentiometer poll of one loop iteration. -/
def step_potentiometer (c : Controller) (inp : LoopInputs) : Option Controller :=
  some { c with pot := (potentiometer_check c.pot c.s inp.adc).1,
                s := (potentiometer_check c.pot c.s inp.adc).2 }

/-- The beat-flag check of one loop iteration. -/
def step_beat (c : Controller) (_inp : LoopInputs) : Option Controller :=
  if c.beat.beat_detected ≠ 0 then
    some { c with beat := { c.beat with beat_detected := 0 },
                  s := led_off (led_on c.s LED_STATUS_PIN) LED_STATUS_PIN }
  else some c

/-- The playlist dirty-check of one loop iteration. -/
def step_playlist (c : Controller) (inp : LoopInputs) : Option Controller :=
  some { c with s := playlist_check_update c.s inp.stray }

/-- The sequential composition of a list of loop steps, first element first. -/
def compose_steps (steps : List (Controller → LoopInputs → Option Controller))
    (c : Controller) (inp : LoopInputs) : Option Controller :=
  steps.foldl (fun acc step => acc.bind (fun c1 => step c1 inp)) (some c)

/-- The loop body as the specification words it: display refresh, button edge detection,
UART poll, potentiometer poll, beat-flag check, playlist dirty-check. -/
def spec_loop_body (c : Controller) (inp : LoopInputs) : Option Controller :=
  compose_steps
    [step_display, step_buttons, step_uart, step_potentiometer, step_beat, step_playlist]
    c inp

/-! ## `nim/src/main.c` -/

/-- The struct `GameState`. -/
structure GameState where
  current_player : Nat
  sticks_remaining : Nat
  take_amount : Nat
  max_take : Nat
  game_over : Nat
  winner : Nat
  start_amount : Nat
deriving DecidableEq

/-- The function `calculate_computer_move`; `rand_value` is the value that `rand()`
returns if it is called.  All variables are `uint8_t`. -/
def calculate_computer_move (game : GameState) (rand_value : Nat) : Nat :=
  let remainder := (game.sticks_remaining % (game.max_take + 1)) % 256
  let optimal_move := if remainder = 0 then 0 else remainder
  if optimal_move = 0 then
    let random_move := ((rand_value % game.max_take) + 1) % 256
    if random_move > game.sticks_remaining then game.sticks_remaining else random_move
  else
    if optimal_move ≥ game.sticks_remaining then
      let optimal_move1 := (game.sticks_remaining - 1) % 256
      if optimal_move1 = 0 then 1 else optimal_move1
    else optimal_move

/-- The rule of the game in `process_player_turn` and `process_computer_turn`: a move
takes between 1 and `max_take` sticks, at most the sticks that remain, and the side whose
move leaves no stick has lost.  `forces_win max_take fuel n` tells whether the side to
move with `n` sticks can force a win, looking `fuel` moves ahead. -/
def forces_win (max_take : Nat) : Nat → Nat → Bool
  | 0, _ => false
  | fuel + 1, n =>
    (List.range (min max_take n)).any (fun i =>
      decide (n - (i + 1) ≥ 1) && !forces_win max_take fuel (n - (i + 1)))

/-- The side to move with `n` sticks can force a win; no game lasts more than `n` moves. -/
def can_force_win (max_take n : Nat) : Bool := forces_win max_take n n

/-- A game of six sticks with at most three taken per move, the computer to move. -/
def nim_six_sticks : GameState :=
  { current_player := 1, sticks_remaining := 6, take_amount := 1, max_take := 3,
    game_over := 0, winner := 0, start_amount := 21 }

/-- A controller right after start-up whose potentiometer has been polled before
(baseline 500, no cool-down). -/
def polled_controller : Controller :=
  { s := startup_state, buttons := buttons_reset,
    pot := { baselineValue := 500, potInitialized := 1, seekCooldown := 0 },
    beat := beat_reset }

/-- Inputs of one loop iteration: no button held, the potentiometer turned to 515, and the
byte 'N' waiting in the UART. -/
def turned_and_received : LoopInputs :=
  { pins := { atPlay := 14, atNext := 14, atPrev := 14 }, adc := 515, rx := some 78,
    stray := 0 }

/-- The controller when the poll loop is entered: the state after start-up, no button
activity recorded, the potentiometer sampled at 500 by `potentiometer_init`, no beat. -/
def startup_controller : Controller :=
  { s := startup_state, buttons := buttons_reset, pot := potentiometer_init 500,
    beat := beat_reset }

/-- Inputs of a loop iteration in which only the UART has something: no button held, the
potentiometer at rest at 500, the byte `byte` waiting in the receiver. -/
def received (byte stray : Nat) : LoopInputs :=
  { pins := { atPlay := 14, atNext := 14, atPrev := 14 }, adc := 500, rx := some byte,
    stray := stray }

/-! ## Frame lemmas: display, LED and UART code leaves the playback variables alone -/

@[simp] theorem display_string_isPlaying (s : State) (str : List Nat) :
    (display_string s str).isPlaying = s.isPlaying := rfl
@[simp] theorem display_string_currentTrack (s : State) (str : List Nat) :
    (display_string s str).currentTrack = s.currentTrack := rfl
@[simp] theorem display_string_totalTracks (s : State) (str : List Nat) :
    (display_string s str).totalTracks = s.totalTracks := rfl
@[simp] theorem display_string_active_playlist (s : State) (str : List Nat) :
    (display_string s str).active_playlist = s.active_playlist := rfl
@[simp] theorem display_string_tx (s : State) (str : List Nat) :
    (display_string s str).tx = s.tx := rfl
@[simp] theorem display_string_PORTB (s : State) (str : List Nat) :
    (display_string s str).PORTB = s.PORTB := rfl

@[simp] theorem led_on_isPlaying (s : State) (pin : Nat) :
    (led_on s pin).isPlaying = s.isPlaying := rfl
@[simp] theorem led_on_currentTrack (s : State) (pin : Nat) :
    (led_on s pin).currentTrack = s.currentTrack := rfl
@[simp] theorem led_on_totalTracks (s : State) (pin : Nat) :
    (led_on s pin).totalTracks = s.totalTracks := rfl
@[simp] theorem led_on_active_playlist (s : State) (pin : Nat) :
    (led_on s pin).active_playlist = s.active_playlist := rfl
@[simp] theorem led_off_isPlaying (s : State) (pin : Nat) :
    (led_off s pin).isPlaying = s.isPlaying := rfl
@[simp] theorem led_off_currentTrack (s : State) (pin : Nat) :
    (led_off s pin).currentTrack = s.currentTrack := rfl
@[simp] theorem led_off_totalTracks (s : State) (pin : Nat) :
    (led_off s pin).totalTracks = s.totalTracks := rfl
@[simp] theorem led_off_active_playlist (s : State) (pin : Nat) :
    (led_off s pin).active_playlist = s.active_playlist := rfl

theorem display_update_loop_fields (n : Nat) (s : State) :
    (display_update_loop n s).isPlaying = s.isPlaying ∧
    (display_update_loop n s).currentTrack = s.currentTrack ∧
    (display_update_loop n s).totalTracks = s.totalTracks ∧
    (display_update_loop n s).active_playlist = s.active_playlist ∧
    (display_update_loop n s).displayBuffer = s.displayBuffer ∧
    (display_update_loop n s).PORTB = s.PORTB ∧
    (display_update_loop n s).tx = s.tx := by
  induction n generalizing s with
  | zero => simp [display_update_loop]
  | succ n ih =>
    have h := ih (display_update s)
    simpa [display_update_loop, display_update] using h

@[simp] theorem display_update_loop_isPlaying (n : Nat) (s : State) :
    (display_update_loop n s).isPlaying = s.isPlaying :=
  (display_update_loop_fields n s).1
@[simp] theorem display_update_loop_currentTrack (n : Nat) (s : State) :
    (display_update_loop n s).currentTrack = s.currentTrack :=
  (display_update_loop_fields n s).2.1
@[simp] theorem display_update_loop_totalTracks (n : Nat) (s : State) :
    (display_update_loop n s).totalTracks = s.totalTracks :=
  (display_update_loop_fields n s).2.2.1
@[simp] theorem display_update_loop_active_playlist (n : Nat) (s : State) :
    (display_update_loop n s).active_playlist = s.active_playlist :=
  (display_update_loop_fields n s).2.2.2.1

@[simp] theorem display_message_isPlaying (s : State) (str : List Nat) (t : Nat) :
    (display_message s str t).isPlaying = s.isPlaying := by
  simp only [display_message]; split <;> simp
@[simp] theorem display_message_currentTrack (s : State) (str : List Nat) (t : Nat) :
    (display_message s str t).currentTrack = s.currentTrack := by
  simp only [display_message]; split <;> simp
@[simp] theorem display_message_totalTracks (s : State) (str : List Nat) (t : Nat) :
    (display_message s str t).totalTracks = s.totalTracks := by
  simp only [display_message]; split <;> simp
@[simp] theorem display_message_active_playlist (s : State) (str : List Nat) (t : Nat) :
    (display_message s str t).active_playlist = s.active_playlist := by
  simp only [display_message]; split <;> simp

@[simp] theorem send_command_isPlaying (s : State) (cmd : Nat) :
    (send_command s cmd).isPlaying = s.isPlaying := by
  simp [send_command, transmit_byte]
@[simp] theorem send_command_currentTrack (s : State) (cmd : Nat) :
    (send_command s cmd).currentTrack = s.currentTrack := by
  simp [send_command, transmit_byte]
@[simp] theorem send_command_totalTracks (s : State) (cmd : Nat) :
    (send_command s cmd).totalTracks = s.totalTracks := by
  simp [send_command, transmit_byte]
@[simp] theorem send_command_active_playlist (s : State) (cmd : Nat) :
    (send_command s cmd).active_playlist = s.active_playlist := by
  simp [send_command, transmit_byte]

/-! ## The rebuild loop -/

/-- The loop of `update_playlist_tracks` terminates whenever `totalTracks < 255`, with fuel
to spare, and touches neither `capacity`, `current_index` nor `display_needs_update`. -/
theorem rebuild_loop_terminates (isP ct tt : Nat) (htt : tt < 255) :
    ∀ (fuel i : Nat) (pl : Playlist), i ≤ tt + 1 → tt + 1 - i < fuel →
      ∃ pl1, rebuild_loop isP ct tt fuel i pl = some pl1 ∧
        pl1.capacity = pl.capacity ∧ pl1.current_index = pl.current_index ∧
        pl1.display_needs_update = pl.display_needs_update ∧
        pl1.tracks.length = pl.tracks.length := by
  intro fuel
  induction fuel with
  | zero => intro i pl _ h; omega
  | succ fuel ih =>
    intro i pl hi hf
    unfold rebuild_loop
    by_cases hle : i ≤ tt
    · have hmod : (i + 1) % 256 = i + 1 := Nat.mod_eq_of_lt (by omega)
      simp only [hle, if_true, hmod]
      by_cases hc : pl.count < pl.capacity
      · simp only [hc, if_true]
        obtain ⟨pl1, h1, h2, h3, h4, h5⟩ := ih (i + 1)
          { pl with tracks := pl.tracks.set pl.count (new_track isP ct i),
                    oob := pl.oob || decide (pl.tracks.length ≤ pl.count),
                    count := (pl.count + 1) % 256 } (by omega) (by omega)
        exact ⟨pl1, h1, h2, h3, h4, by simpa using h5⟩
      · simp only [hc, if_false]
        exact ih (i + 1) pl (by omega) (by omega)
    · simp only [hle, if_false]
      exact ⟨pl, rfl, rfl, rfl, rfl, rfl⟩

/-- With `totalTracks = 255` (or any larger number in the embedding) the `uint8_t` counter
never exceeds `totalTracks`: the loop has no exit, whatever the fuel. -/
theorem rebuild_loop_no_exit (isP ct tt : Nat) (htt : 255 ≤ tt) :
    ∀ (fuel i : Nat) (pl : Playlist), i ≤ 255 → rebuild_loop isP ct tt fuel i pl = none := by
  intro fuel
  induction fuel with
  | zero => intro i pl _; rfl
  | succ fuel ih =>
    intro i pl hi
    unfold rebuild_loop
    have hle : i ≤ tt := by omega
    have hnext : (i + 1) % 256 ≤ 255 := by omega
    simp only [hle, if_true]
    exact ih _ _ hnext

/-- On a track array of `capacity` slots the loop fills slot `k` with track `k + 1` and
stops counting at the capacity. -/
theorem rebuild_loop_tracks (isP ct tt : Nat) (htt : tt < 255) :
    ∀ (fuel i : Nat) (pl pl1 : Playlist), 1 ≤ i → i ≤ tt + 1 →
      rebuild_loop isP ct tt fuel i pl = some pl1 →
      pl.tracks.length = pl.capacity →
      pl.count = min (i - 1) pl.capacity →
      (∀ k, k < pl.count → pl.tracks[k]? = some (new_track isP ct (k + 1))) →
      pl1.count = min tt pl.capacity ∧ pl1.oob = pl.oob ∧
      (∀ k, k < pl1.count → pl1.tracks[k]? = some (new_track isP ct (k + 1))) := by
  intro fuel
  induction fuel with
  | zero => intro i pl pl1 _ _ h; simp [rebuild_loop] at h
  | succ fuel ih =>
    intro i pl pl1 hi1 hi h hlen hcount htr
    unfold rebuild_loop at h
    by_cases hle : i ≤ tt
    · have hmod : (i + 1) % 256 = i + 1 := Nat.mod_eq_of_lt (by omega)
      simp only [hle, if_true, hmod] at h
      by_cases hc : pl.count < pl.capacity
      · simp only [hc, if_true] at h
        have hcnt : pl.count = i - 1 := by omega
        have hmod2 : (pl.count + 1) % 256 = i := by
          rw [hcnt]; have : i - 1 + 1 = i := by omega
          rw [this]; exact Nat.mod_eq_of_lt (by omega)
        have := ih (i + 1) _ pl1 (by omega) (by omega) h
          (by simpa using hlen)
          (by simp only [hmod2]; simp; omega)
          (by
            intro k hk
            simp only [hmod2] at hk
            simp only
            by_cases hk2 : k = pl.count
            · subst hk2
              have hlt : pl.count < pl.tracks.length := by omega
              rw [List.getElem?_set_self hlt]
              have : pl.count + 1 = i := by omega
              rw [this]
            · rw [List.getElem?_set_ne (Ne.symm hk2)]
              exact htr k (by omega))
        obtain ⟨h1, h2, h3⟩ := this
        refine ⟨by simpa using h1, ?_, h3⟩
        rw [h2]
        have hlt : ¬ pl.tracks.length ≤ pl.count := by omega
        simp [hlt]
      · simp only [hc, if_false] at h
        exact ih (i + 1) pl pl1 (by omega) (by omega) h hlen (by omega) htr
    · simp only [hle, if_false] at h
      cases h
      refine ⟨by omega, rfl, htr⟩

/-! ## `update_playlist_tracks` and `process_serial` on the playback variables -/

/-- Below 255 tracks `update_playlist_tracks` returns, and it changes nothing but the
playlist. -/
theorem update_playlist_tracks_some (s : State) (h : s.totalTracks < 255) :
    ∃ p, update_playlist_tracks s = some { s with active_playlist := p } ∧
      p.isSome = s.active_playlist.isSome := by
  unfold update_playlist_tracks
  cases hp : s.active_playlist with
  | none => exact ⟨none, by simp [← hp], rfl⟩
  | some pl =>
    obtain ⟨pl1, h1, -⟩ := rebuild_loop_terminates s.isPlaying s.currentTrack s.totalTracks h
      256 1 { pl with count := 0 } (by omega) (by omega)
    simp only [h1]
    split
    · refine ⟨_, rfl, ?_⟩
      simp only [playlist_set_current_track]
      split <;> rfl
    · exact ⟨_, rfl, rfl⟩

theorem update_playlist_tracks_playback (s : State) (h : s.totalTracks < 255) :
    ∃ s1, update_playlist_tracks s = some s1 ∧ playback s1 = playback s ∧
      s1.active_playlist.isSome = s.active_playlist.isSome := by
  obtain ⟨p, hp, hs⟩ := update_playlist_tracks_some s h
  exact ⟨_, hp, rfl, hs⟩

/-! ## Closed forms of the branches without a rebuild -/

theorem process_serial_play (s : State) :
    process_serial s (some CMD_PLAY) =
      some (display_string
        (led_on
          { s with isPlaying := 1, active_playlist := playlist_set_playing s.active_playlist 1 }
          LED_PLAY_PIN)
        STR_PLAY) := by
  cases hp : s.active_playlist <;> simp [process_serial, hp, playlist_set_playing]

theorem process_serial_pause (s : State) :
    process_serial s (some CMD_PAUSE) =
      some (display_string
        (led_off
          { s with isPlaying := 0, active_playlist := playlist_set_playing s.active_playlist 0 }
          LED_PLAY_PIN)
        STR_PAUS) := by
  cases hp : s.active_playlist <;> simp [process_serial, hp, playlist_set_playing]

theorem process_serial_dec_at_one (s : State) (h : ¬ s.totalTracks > 1) :
    process_serial s (some CMD_TRACK_COUNT_DEC) =
      some (display_message s ([84] ++ fmt02d s.totalTracks) 200) := by
  simp [process_serial, h]

/-- The function `playlist_set_playing` moves neither `current_index` nor `count`. -/
theorem playlist_set_playing_index (p : Option Playlist) (v : Nat) :
    (playlist_set_playing p v).map (fun pl => (pl.current_index, pl.count, pl.capacity)) =
      p.map (fun pl => (pl.current_index, pl.count, pl.capacity)) := by
  cases p with
  | none => rfl
  | some pl =>
    simp only [playlist_set_playing]
    split
    · rfl
    · split <;> rfl

/-- A rebuild followed by display and UART code `f`: the call returns, the playback triple
is the one handed to the rebuild, and the playlist is the one the rebuild produced. -/
theorem rebuild_then (s0 s : State) (h : s.totalTracks < 255) (f : State → State)
    (q : Nat × Nat × Nat) (hq : playback s = q) (hpl : s.active_playlist = s0.active_playlist)
    (hf : ∀ t, playback (f t) = playback t ∧ (f t).active_playlist = t.active_playlist) :
    ∃ s1, (update_playlist_tracks s).map f = some s1 ∧ playback s1 = q ∧
      ((s1.active_playlist = s0.active_playlist ∧ playback s1 = playback s0) ∨
       ∃ s2 s3, s2.active_playlist = s0.active_playlist ∧ playback s2 = playback s1 ∧
        update_playlist_tracks s2 = some s3 ∧ s1.active_playlist = s3.active_playlist) := by
  obtain ⟨s1, h1, h2, -⟩ := update_playlist_tracks_playback s h
  have e : playback (f s1) = q := by rw [(hf s1).1, h2, hq]
  exact ⟨f s1, by simp [h1], e, Or.inr ⟨s, s1, hpl, by rw [e, hq], h1, (hf s1).2⟩⟩

/-- A byte other than `'P'` and `'S'`: the call returns, its effect on the playback
variables is `playback_step`, and the playlist is either left alone together with the
playback variables or rebuilt by `update_playlist_tracks` from the new playback variables. -/
theorem process_serial_other (s : State) (h : s.totalTracks < 255) (b : Nat)
    (hP : b ≠ CMD_PLAY) (hS : b ≠ CMD_PAUSE) :
    ∃ s1, process_serial s (some b) = some s1 ∧
      playback s1 = playback_step (playback s) b ∧
      ((s1.active_playlist = s.active_playlist ∧ playback s1 = playback s) ∨
       ∃ s2 s3, s2.active_playlist = s.active_playlist ∧ playback s2 = playback s1 ∧
          update_playlist_tracks s2 = some s3 ∧ s1.active_playlist = s3.active_playlist) := by
  unfold process_serial playback_step
  simp only [hP, hS, if_false]
  by_cases hT : b = CMD_TRACK_COUNT_INC
  · simp only [hT, if_true]
    apply rebuild_then
    · split <;> first | (simp at *; done) | (simp at *; omega)
    · simp only [playback]; split <;> rfl
    · split <;> rfl
    · intro t; simp [playback]
  simp only [hT, if_false]
  by_cases hD : b = CMD_TRACK_COUNT_DEC
  · simp only [hD, if_true]
    by_cases h1 : s.totalTracks > 1
    · simp only [h1, if_true]
      apply rebuild_then
      · split <;> simp at * <;> omega
      · simp only [playback]; split <;> rfl
      · split <;> rfl
      · intro t; simp [playback]
    · simp only [h1, if_false]
      have h2 : ¬ 1 < s.totalTracks := h1
      exact ⟨_, rfl, by simp [playback, h2], Or.inl (by simp [playback])⟩
  simp only [hD, if_false]
  by_cases hC : b = CMD_CURRENT_TRACK_INC
  · simp only [hC, if_true, true_or]
    apply rebuild_then
    · split <;> simpa using h
    · simp only [playback]; split <;> rfl
    · split <;> rfl
    · intro t; simp [playback]
  simp only [hC, if_false, false_or]
  by_cases hV : b = CMD_CURRENT_TRACK_DEC
  · simp only [hV, if_true, true_or]
    apply rebuild_then
    · split <;> simpa using h
    · simp only [playback]; split <;> rfl
    · split <;> rfl
    · intro t; simp [playback]
  simp only [hV, if_false, false_or]
  by_cases hN : b = CMD_NEXT_TRACK
  · simp only [hN, if_true]
    apply rebuild_then
    · split <;> simpa using h
    · simp only [playback]; split <;> rfl
    · split <;> rfl
    · intro t; simp [playback]
  simp only [hN, if_false]
  by_cases hB : b = CMD_PREV_TRACK
  · simp only [hB, if_true]
    apply rebuild_then
    · split <;> simpa using h
    · simp only [playback]; split <;> rfl
    · split <;> rfl
    · intro t; simp [playback]
  simp only [hB, if_false]
  split_ifs <;>
    exact ⟨_, rfl, by simp [playback, led_off, led_on],
      Or.inl (by simp [playback, led_off, led_on])⟩

/-- The shape of one call of `process_serial` when `totalTracks < 255`: the call returns,
its effect on the playback variables is `playback_step`, and the playlist is either marked
by `playlist_set_playing` (`'P'`, `'S'`), left alone together with the playback variables,
or rebuilt by `update_playlist_tracks` from the new playback variables. -/
theorem process_serial_shape (s : State) (h : s.totalTracks < 255) (b : Nat) :
    ∃ s1, process_serial s (some b) = some s1 ∧
      playback s1 = playback_step (playback s) b ∧
      ((b = CMD_PLAY ∧ s1.active_playlist = playlist_set_playing s.active_playlist 1) ∨
       (b = CMD_PAUSE ∧ s1.active_playlist = playlist_set_playing s.active_playlist 0) ∨
       (s1.active_playlist = s.active_playlist ∧ playback s1 = playback s) ∨
       (∃ s2 s3, s2.active_playlist = s.active_playlist ∧ playback s2 = playback s1 ∧
          update_playlist_tracks s2 = some s3 ∧ s1.active_playlist = s3.active_playlist)) := by
  by_cases hP : b = CMD_PLAY
  · subst hP
    refine ⟨_, process_serial_play s, ?_, Or.inl ⟨rfl, rfl⟩⟩
    simp [playback, playback_step, led_on]
  by_cases hS : b = CMD_PAUSE
  · subst hS
    refine ⟨_, process_serial_pause s, ?_, Or.inr (Or.inl ⟨rfl, rfl⟩)⟩
    simp [playback, playback_step, led_off]
  obtain ⟨s1, h1, h2, h3⟩ := process_serial_other s h b hP hS
  exact ⟨s1, h1, h2, Or.inr (Or.inr h3)⟩

/-- The function `process_serial` returns for every byte when `totalTracks < 255`, and its effect on
the playback variables is `playback_step`. -/
theorem process_serial_playback (s : State) (h : s.totalTracks < 255) (b : Nat) :
    ∃ s1, process_serial s (some b) = some s1 ∧
      playback s1 = playback_step (playback s) b := by
  obtain ⟨s1, h1, h2, -⟩ := process_serial_shape s h b
  exact ⟨s1, h1, h2⟩

/-- One received byte keeps `1 ≤ currentTrack ≤ totalTracks ≤ 99`. -/
theorem playback_step_inv (isP ct tt b : Nat) (h1 : 1 ≤ ct) (h2 : ct ≤ tt) (h3 : tt ≤ 99) :
    1 ≤ (playback_step (isP, ct, tt) b).2.1 ∧
    (playback_step (isP, ct, tt) b).2.1 ≤ (playback_step (isP, ct, tt) b).2.2 ∧
    (playback_step (isP, ct, tt) b).2.2 ≤ 99 := by
  unfold playback_step
  simp only []
  split_ifs <;> simp <;> omega

theorem process_serial_inv (s : State) (h : PlaybackInv s) (b : Nat) :
    ∃ s1, process_serial s (some b) = some s1 ∧ PlaybackInv s1 ∧
      playback s1 = playback_step (playback s) b := by
  obtain ⟨h1, h2, h3⟩ := h
  obtain ⟨s1, hs1, hp⟩ := process_serial_playback s (by omega) b
  refine ⟨s1, hs1, ?_, hp⟩
  have hinv := playback_step_inv s.isPlaying s.currentTrack s.totalTracks b h1 h2 h3
  have e1 : s1.currentTrack = (playback_step (playback s) b).2.1 := by rw [← hp]; rfl
  have e2 : s1.totalTracks = (playback_step (playback s) b).2.2 := by rw [← hp]; rfl
  unfold PlaybackInv
  rw [e1, e2]
  exact hinv

/-- Every byte sequence is processed to the end from a state satisfying the invariant, the
invariant holds afterwards, and the playback variables are the fold of `playback_step`. -/
theorem run_inv (bytes : List Nat) :
    ∀ s : State, PlaybackInv s →
      ∃ s1, run s bytes = some s1 ∧ PlaybackInv s1 ∧
        playback s1 = bytes.foldl playback_step (playback s) := by
  induction bytes with
  | nil => intro s h; exact ⟨s, rfl, h, rfl⟩
  | cons b bs ih =>
    intro s h
    obtain ⟨s1, hs1, hinv, hp⟩ := process_serial_inv s h b
    obtain ⟨s2, hs2, hinv2, hp2⟩ := ih s1 hinv
    refine ⟨s2, ?_, hinv2, ?_⟩
    · simp only [run, hs1]; exact hs2
    · rw [hp2, hp]; rfl

theorem run_append (bs cs : List Nat) : ∀ s : State,
    run s (bs ++ cs) = (run s bs).bind (fun s1 => run s1 cs) := by
  induction bs with
  | nil => intro s; rfl
  | cons b bs ih =>
    intro s
    simp only [List.cons_append, run]
    cases process_serial s (some b) with
    | none => rfl
    | some s1 => exact ih s1

/-- The playback variables after a run are the fold of `playback_step` over the bytes. -/
theorem run_playback (s : State) (h : PlaybackInv s) (bytes : List Nat) :
    (run s bytes).map playback = some (bytes.foldl playback_step (playback s)) := by
  obtain ⟨s1, h1, -, h2⟩ := run_inv bytes s h
  rw [h1, Option.map_some', h2]

/-! ## The playlist invariant -/

/-- On a non-null playlist whose array has `capacity` slots, under the playback invariant,
`update_playlist_tracks` returns with `min totalTracks capacity` entries, entry `k` being
track `k + 1`, and with `current_index = currentTrack - 1`. -/
theorem update_playlist_tracks_spec (s : State) (hinv : PlaybackInv s) (pl : Playlist)
    (hp : s.active_playlist = some pl) (hlen : pl.tracks.length = pl.capacity) :
    ∃ pl1, update_playlist_tracks s = some { s with active_playlist := some pl1 } ∧
      pl1.capacity = pl.capacity ∧ pl1.tracks.length = pl.tracks.length ∧
      pl1.count = min s.totalTracks pl.capacity ∧
      pl1.current_index = s.currentTrack - 1 ∧ pl1.oob = pl.oob ∧
      ∀ k, k < pl1.count →
        pl1.tracks[k]? = some (new_track s.isPlaying s.currentTrack (k + 1)) := by
  obtain ⟨h1, h2, h3⟩ := hinv
  have htt : s.totalTracks < 255 := by omega
  obtain ⟨pl1, e1, e2, -, -, e5⟩ :=
    rebuild_loop_terminates s.isPlaying s.currentTrack s.totalTracks htt
      256 1 { pl with count := 0 } (by omega) (by omega)
  obtain ⟨f1, f2, f3⟩ :=
    rebuild_loop_tracks s.isPlaying s.currentTrack s.totalTracks htt
      256 1 { pl with count := 0 } pl1 (by omega) (by omega) e1 hlen (by simp)
      (by intro k hk; simp at hk)
  have hc : s.currentTrack ≤ s.totalTracks ∧ s.currentTrack > 0 := ⟨h2, h1⟩
  unfold update_playlist_tracks
  simp only [hp, e1, hc, and_self, if_true, playlist_set_current_track]
  split
  · exact ⟨_, rfl, e2, e5, f1, rfl, f2, f3⟩
  · exact ⟨_, rfl, e2, e5, f1, rfl, f2, f3⟩

theorem new_track_off (a b ct i : Nat) (h : i ≠ ct) : new_track a ct i = new_track b ct i := by
  simp [new_track, h]

theorem new_track_mark (a ct v : Nat) (hv : v ≤ 1) :
    { new_track a ct ct with isPlaying := v } = new_track v ct ct := by
  have : v = 0 ∨ v = 1 := by omega
  rcases this with rfl | rfl <;> simp [new_track]

/-- The function `playlist_set_playing` with flag `v ∈ {0, 1}` keeps the playlist in
agreement with the playback variables once `isPlaying` is `v`. -/
theorem playlist_set_playing_synced (isP ct tt v : Nat) (pl : Playlist) (hv : v ≤ 1)
    (h1 : 1 ≤ ct) (h : TracksSynced isP ct tt pl) :
    ∃ pl1, playlist_set_playing (some pl) v = some pl1 ∧ TracksSynced v ct tt pl1 := by
  obtain ⟨hcap, hlen, hcnt, htr⟩ := h
  unfold playlist_set_playing
  by_cases h0 : pl.count = 0
  · simp only [h0, if_true]
    exact ⟨pl, rfl, hcap, hlen, Or.inl h0, fun k hk => by omega⟩
  · simp only [h0, if_false]
    have hidx : pl.count = min tt 20 ∧ pl.current_index = ct - 1 := by
      rcases hcnt with h | h
      · exact absurd h h0
      · exact h
    cases hget : pl.tracks[pl.current_index]? with
    | none =>
      refine ⟨_, rfl, hcap, hlen, hcnt, fun k hk => ?_⟩
      have hge : pl.tracks.length ≤ pl.current_index := List.getElem?_eq_none_iff.mp hget
      simp only at hk ⊢
      rw [htr k hk, new_track_off isP v ct (k + 1) (by omega)]
    | some t =>
      refine ⟨_, rfl, hcap, by simpa using hlen, hcnt, fun k hk => ?_⟩
      have hlt : pl.current_index < pl.tracks.length := by
        by_contra hcon
        rw [List.getElem?_eq_none_iff.mpr (by omega)] at hget
        cases hget
      simp only at hk ⊢
      by_cases hk2 : k = pl.current_index
      · subst hk2
        rw [List.getElem?_set_self hlt]
        have ht : t = new_track isP ct (pl.current_index + 1) := by
          have := htr _ hk
          rw [hget] at this
          exact Option.some.inj this
        have hct : pl.current_index + 1 = ct := by omega
        rw [ht, hct, new_track_mark isP ct v hv]
      · rw [List.getElem?_set_ne (Ne.symm hk2), htr k hk,
          new_track_off isP v ct (k + 1) (by omega)]

/-- One received byte keeps the invariant of the system, and the call returns. -/
theorem process_serial_system_inv (s : State) (h : SystemInv s) (b : Nat) :
    ∃ s1, process_serial s (some b) = some s1 ∧ SystemInv s1 := by
  obtain ⟨hpb, pl, hpl, hsync⟩ := h
  obtain ⟨s1, hs1, hinv1, hstep⟩ := process_serial_inv s hpb b
  have htt : s.totalTracks < 255 := by unfold PlaybackInv at hpb; omega
  obtain ⟨s1b, hs1b, -, hshape⟩ := process_serial_shape s htt b
  rw [hs1] at hs1b
  cases hs1b
  refine ⟨s1, hs1, hinv1, ?_⟩
  have hpb2 := hpb
  obtain ⟨h1, h2, h3⟩ := hpb2
  rcases hshape with
    ⟨hb, hp1⟩ | ⟨hb, hp1⟩ | ⟨hp1, hsame⟩ | ⟨s2, s3, hp2, hpb3, hup, hp3⟩
  · subst hb
    simp [playback, playback_step] at hstep
    obtain ⟨e1, e2, e3⟩ := hstep
    obtain ⟨pl1, g1, g2⟩ := playlist_set_playing_synced s.isPlaying s.currentTrack
      s.totalTracks 1 pl (by omega) h1 hsync
    refine ⟨pl1, by rw [hp1, hpl, g1], ?_⟩
    rw [e1, e2, e3]; exact g2
  · subst hb
    simp [playback, playback_step] at hstep
    obtain ⟨e1, e2, e3⟩ := hstep
    obtain ⟨pl1, g1, g2⟩ := playlist_set_playing_synced s.isPlaying s.currentTrack
      s.totalTracks 0 pl (by omega) h1 hsync
    refine ⟨pl1, by rw [hp1, hpl, g1], ?_⟩
    rw [e1, e2, e3]; exact g2
  · simp [playback] at hsame
    obtain ⟨e1, e2, e3⟩ := hsame
    refine ⟨pl, by rw [hp1, hpl], ?_⟩
    rw [e1, e2, e3]; exact hsync
  · simp [playback] at hpb3
    obtain ⟨e1, e2, e3⟩ := hpb3
    have hinv2 : PlaybackInv s2 := by
      unfold PlaybackInv at hinv1 ⊢
      rw [e2, e3]; exact hinv1
    obtain ⟨pl1, g1, g2, g3, g4, g5, -, g7⟩ :=
      update_playlist_tracks_spec s2 hinv2 pl (by rw [hp2, hpl]) (by rw [hsync.1, hsync.2.1])
    rw [g1] at hup
    cases hup
    refine ⟨pl1, hp3, by rw [g2, hsync.1], by rw [g3, hsync.2.1], Or.inr ⟨?_, ?_⟩, ?_⟩
    · rw [g4, hsync.1, e3]
    · rw [g5, e2]
    · rw [← e1, ← e2]; exact g7

/-- The state in which the poll loop is entered satisfies the invariant of the system. -/
theorem main_startup_inv (mem : List Track) (hmem : mem.length = 20) :
    SystemInv (main_startup mem) := by
  have e : playback (main_startup mem) = (0, 1, 1) ∧
      (main_startup mem).active_playlist = some (playlist_create 20 mem) := by
    simp [main_startup, playback, commands_set_playlist, leds_test, commands_init]
  obtain ⟨e1, e2⟩ := e
  simp [playback] at e1
  obtain ⟨a1, a2, a3⟩ := e1
  refine ⟨by simp [PlaybackInv, a2, a3], _, e2, ?_⟩
  exact ⟨rfl, hmem, Or.inl rfl, fun k hk => by simp [playlist_create] at hk⟩

/-- Every byte sequence is processed to the end from start-up, and the invariant of the
system holds afterwards. -/
theorem run_system_inv (bytes : List Nat) :
    ∀ s : State, SystemInv s → ∃ s1, run s bytes = some s1 ∧ SystemInv s1 := by
  induction bytes with
  | nil => intro s h; exact ⟨s, rfl, h⟩
  | cons b bs ih =>
    intro s h
    obtain ⟨s1, hs1, hinv⟩ := process_serial_system_inv s h b
    obtain ⟨s2, hs2, hinv2⟩ := ih s1 hinv
    exact ⟨s2, by simp only [run, hs1]; exact hs2, hinv2⟩

/-- In every state reached from start-up whose playlist is non-empty, `current_index` is
`currentTrack - 1` and `count` is `min totalTracks 20`, so `current_index < count` holds
exactly when `currentTrack ≤ 20`. -/
theorem run_current_index (mem : List Track) (hmem : mem.length = 20) (bytes : List Nat) :
    ∃ s pl, run (main_startup mem) bytes = some s ∧ s.active_playlist = some pl ∧
      (pl.count ≠ 0 → pl.count = min s.totalTracks 20 ∧
        pl.current_index = s.currentTrack - 1 ∧
        (pl.current_index < pl.count ↔ s.currentTrack ≤ 20)) := by
  obtain ⟨s, hs, hpb, pl, hpl, hsync⟩ :=
    run_system_inv bytes (main_startup mem) (main_startup_inv mem hmem)
  refine ⟨s, pl, hs, hpl, fun h0 => ?_⟩
  obtain ⟨h1, h2, h3⟩ := hpb
  rcases hsync.2.2.1 with h | ⟨hc, hi⟩
  · exact absurd h h0
  · exact ⟨hc, hi, by omega⟩

/-! ## The entries of a rebuilt playlist -/

theorem entries_eq_map (pl : Playlist) (f : Nat → Track)
    (h : ∀ k, k < pl.count → pl.tracks[k]? = some (f k)) :
    entries pl = (List.range pl.count).map f := by
  apply List.ext_getElem?
  intro k
  unfold entries
  by_cases hk : k < pl.count
  · rw [List.getElem?_take_of_lt hk, h k hk, List.getElem?_map, List.getElem?_range hk]
    rfl
  · rw [List.getElem?_take_eq_none (by omega)]
    symm
    rw [List.getElem?_eq_none_iff]
    simp
    omega

theorem filter_map_range_single {α : Type} (f : Nat → α) (p : α → Bool) (c : Nat)
    (hp : ∀ k, p (f k) = decide (k = c)) :
    ∀ n, ((List.range n).map f).filter p = if c < n then [f c] else [] := by
  intro n
  induction n with
  | zero => simp
  | succ n ih =>
    rw [List.range_succ, List.map_append, List.filter_append, ih]
    by_cases h1 : c < n
    · have h2 : ¬ n = c := by omega
      have h3 : c < n + 1 := by omega
      simp [h1, h3, hp, h2]
    · by_cases h2 : n = c
      · subst h2
        simp [hp]
      · have h3 : ¬ c < n + 1 := by omega
        simp [h1, h3, hp, h2]

theorem filter_map_range_none {α : Type} (f : Nat → α) (p : α → Bool)
    (hp : ∀ k, p (f k) = false) (n : Nat) : ((List.range n).map f).filter p = [] := by
  rw [List.filter_eq_nil_iff]
  intro a ha
  obtain ⟨k, -, rfl⟩ := List.mem_map.mp ha
  simp [hp]

/-- The facts about the entries of a playlist whose entry `k` is track `k + 1`. -/
theorem entries_facts (isP ct : Nat) (pl : Playlist) (h1 : 1 ≤ ct)
    (h : ∀ k, k < pl.count → pl.tracks[k]? = some (new_track isP ct (k + 1))) :
    (entries pl).length = pl.count ∧
    (entries pl).map (fun t => t.number) = List.range' 1 pl.count ∧
    (∀ t, t ∈ entries pl → (t.isPlaying ≠ 0 ↔ (isP ≠ 0 ∧ t.number = ct))) ∧
    (entries pl).filter (fun t => t.isPlaying != 0) =
      (if isP ≠ 0 ∧ ct ≤ pl.count then [new_track isP ct ct] else []) := by
  have e := entries_eq_map pl (fun k => new_track isP ct (k + 1)) h
  refine ⟨by simp [e], ?_, ?_, ?_⟩
  · rw [e, List.range'_eq_map_range, List.map_map]
    apply List.map_congr_left
    intro k _
    simp [new_track, Nat.add_comm]
  · intro t ht
    rw [e] at ht
    obtain ⟨k, -, rfl⟩ := List.mem_map.mp ht
    by_cases hc : isP ≠ 0 ∧ k + 1 = ct <;> simp [new_track, hc]
  · rw [e]
    by_cases hP : isP = 0
    · rw [filter_map_range_none]
      · simp [hP]
      · intro k; simp [new_track, hP]
    · rw [filter_map_range_single (fun k => new_track isP ct (k + 1)) _ (ct - 1)]
      · have e2 : ct - 1 + 1 = ct := by omega
        by_cases hc : ct ≤ pl.count
        · have : ct - 1 < pl.count := by omega
          simp [hP, hc, this, e2]
        · have : ¬ ct - 1 < pl.count := by omega
          simp [hP, hc, this]
      · intro k
        by_cases hk : k = ct - 1
        · have : k + 1 = ct := by omega
          simp [new_track, hP, this]
          omega
        · have : ¬ k + 1 = ct := by omega
          simp [new_track, hP, hk, this]

/-! ## Claims on the playback variables -/

/-- C1: from the state set by `commands_init`, every finite sequence of received bytes is
processed to the end by `process_serial`, and the resulting playback state satisfies
`1 ≤ currentTrack ≤ totalTracks ≤ 99`; every prefix of a sequence being a sequence, this
is the invariant after each byte. -/
theorem C1_track_invariant (s0 : State) (bytes : List Nat) :
    ∃ s, run (commands_init s0) bytes = some s ∧
      1 ≤ s.currentTrack ∧ s.currentTrack ≤ s.totalTracks ∧ s.totalTracks ≤ 99 := by
  have h0 : PlaybackInv (commands_init s0) := by
    simp [PlaybackInv, commands_init]
  obtain ⟨s, hs, hinv, -⟩ := run_inv bytes (commands_init s0) h0
  exact ⟨s, hs, hinv⟩

/-- C4: in every playback state (`totalTracks` below 255; the data model bounds it by 99),
receiving `'C'` sets `currentTrack` to `currentTrack + 1` when
`currentTrack < totalTracks` and to 1 when `currentTrack = totalTracks` (the two cases of
`1 ≤ currentTrack ≤ totalTracks`), and leaves `totalTracks` and `isPlaying` unchanged. -/
theorem C4_current_track_inc (s : State) (h3 : s.totalTracks < 255) :
    ∃ s1, process_serial s (some CMD_CURRENT_TRACK_INC) = some s1 ∧
      (s.currentTrack < s.totalTracks → s1.currentTrack = s.currentTrack + 1) ∧
      (s.currentTrack = s.totalTracks → s1.currentTrack = 1) ∧
      s1.totalTracks = s.totalTracks ∧ s1.isPlaying = s.isPlaying := by
  obtain ⟨s1, hs1, hp⟩ := process_serial_playback s h3 CMD_CURRENT_TRACK_INC
  refine ⟨s1, hs1, ?_⟩
  simp only [playback_step, playback] at hp
  simp at hp
  obtain ⟨e1, e2, e3⟩ := hp
  refine ⟨?_, ?_, e3, e1⟩
  · intro hlt
    rw [e2, if_pos hlt]
    exact Nat.mod_eq_of_lt (by omega)
  · intro heq
    rw [e2, if_neg (by omega)]

/-- Witness for C4, at the start-up state, where `currentTrack = totalTracks = 1`. -/
theorem C4_current_track_inc_witness :
    startup_state.totalTracks < 255 ∧
    ∃ s1, process_serial startup_state (some CMD_CURRENT_TRACK_INC) = some s1 ∧
      (startup_state.currentTrack < startup_state.totalTracks →
        s1.currentTrack = startup_state.currentTrack + 1) ∧
      (startup_state.currentTrack = startup_state.totalTracks → s1.currentTrack = 1) ∧
      s1.totalTracks = startup_state.totalTracks ∧ s1.isPlaying = startup_state.isPlaying :=
  ⟨by decide, C4_current_track_inc startup_state (by decide)⟩

/-- C5: in every playback state (`totalTracks` below 255; the data model bounds it by 99),
receiving `'V'` sets `currentTrack` to `currentTrack - 1` when `currentTrack > 1` and to
`totalTracks` when `currentTrack = 1` (the two cases of `1 ≤ currentTrack`), and leaves
`totalTracks` and `isPlaying` unchanged. -/
theorem C5_current_track_dec (s : State) (h3 : s.totalTracks < 255) :
    ∃ s1, process_serial s (some CMD_CURRENT_TRACK_DEC) = some s1 ∧
      (1 < s.currentTrack → s1.currentTrack = s.currentTrack - 1) ∧
      (s.currentTrack = 1 → s1.currentTrack = s.totalTracks) ∧
      s1.totalTracks = s.totalTracks ∧ s1.isPlaying = s.isPlaying := by
  obtain ⟨s1, hs1, hp⟩ := process_serial_playback s h3 CMD_CURRENT_TRACK_DEC
  refine ⟨s1, hs1, ?_⟩
  simp only [playback_step, playback] at hp
  simp at hp
  obtain ⟨e1, e2, e3⟩ := hp
  refine ⟨?_, ?_, e3, e1⟩
  · intro hlt
    rw [e2, if_pos hlt]
  · intro heq
    rw [e2, if_neg (by omega)]

/-- Witness for C5, at the start-up state, where `currentTrack = totalTracks = 1`. -/
theorem C5_current_track_dec_witness :
    startup_state.totalTracks < 255 ∧
    ∃ s1, process_serial startup_state (some CMD_CURRENT_TRACK_DEC) = some s1 ∧
      (1 < startup_state.currentTrack → s1.currentTrack = startup_state.currentTrack - 1) ∧
      (startup_state.currentTrack = 1 → s1.currentTrack = startup_state.totalTracks) ∧
      s1.totalTracks = startup_state.totalTracks ∧ s1.isPlaying = startup_state.isPlaying :=
  ⟨by decide, C5_current_track_dec startup_state (by decide)⟩

/-- C6: in every playback state with `totalTracks` below 255, in particular in `1..99`,
receiving `'T'` sets `totalTracks` to `min (totalTracks + 1) 99` and leaves `currentTrack`
and `isPlaying` unchanged; at `totalTracks = 99` the count stays 99. -/
theorem C6_track_count_inc (s : State) (h : s.totalTracks < 255) :
    ∃ s1, process_serial s (some CMD_TRACK_COUNT_INC) = some s1 ∧
      s1.totalTracks = min (s.totalTracks + 1) 99 ∧
      (s.totalTracks = 99 → s1.totalTracks = 99) ∧
      s1.currentTrack = s.currentTrack ∧ s1.isPlaying = s.isPlaying := by
  obtain ⟨s1, hs1, hp⟩ := process_serial_playback s h CMD_TRACK_COUNT_INC
  refine ⟨s1, hs1, ?_⟩
  simp only [playback_step, playback] at hp
  simp at hp
  obtain ⟨e1, e2, e3⟩ := hp
  have hmod : (s.totalTracks + 1) % 256 = s.totalTracks + 1 := Nat.mod_eq_of_lt (by omega)
  rw [hmod] at e3
  refine ⟨?_, ?_, e2, e1⟩
  · rw [e3]; split <;> omega
  · intro h99; rw [e3]; split <;> omega

/-- Witness for C6, at the start-up state, where `totalTracks = 1`. -/
theorem C6_track_count_inc_witness :
    startup_state.totalTracks < 255 ∧
    ∃ s1, process_serial startup_state (some CMD_TRACK_COUNT_INC) = some s1 ∧
      s1.totalTracks = min (startup_state.totalTracks + 1) 99 ∧
      (startup_state.totalTracks = 99 → s1.totalTracks = 99) ∧
      s1.currentTrack = startup_state.currentTrack ∧ s1.isPlaying = startup_state.isPlaying :=
  ⟨by decide, C6_track_count_inc startup_state (by decide)⟩

/-- C7: in every playback state with `totalTracks` below 255 (in particular under the
invariant `1 ≤ currentTrack ≤ totalTracks ≤ 99`), receiving `'D'` with
`totalTracks > 1` sets `totalTracks` to `totalTracks - 1` and `currentTrack` to
`min currentTrack (totalTracks - 1)`; with `totalTracks = 1` it changes neither
`totalTracks`, `currentTrack`, `isPlaying` nor the playlist.  `isPlaying` is unchanged in
both cases. -/
theorem C7_track_count_dec (s : State) (h3 : s.totalTracks < 255) :
    ∃ s1, process_serial s (some CMD_TRACK_COUNT_DEC) = some s1 ∧
      s1.isPlaying = s.isPlaying ∧
      (s.totalTracks > 1 → s1.totalTracks = s.totalTracks - 1 ∧
        s1.currentTrack = min s.currentTrack (s.totalTracks - 1)) ∧
      (s.totalTracks = 1 → s1.totalTracks = 1 ∧ s1.currentTrack = s.currentTrack ∧
        s1.active_playlist = s.active_playlist) := by
  by_cases hgt : s.totalTracks > 1
  · obtain ⟨s1, hs1, hp⟩ := process_serial_playback s h3 CMD_TRACK_COUNT_DEC
    refine ⟨s1, hs1, ?_⟩
    simp only [playback_step, playback] at hp
    simp [hgt] at hp
    obtain ⟨e1, e2, e3⟩ := hp
    refine ⟨e1, fun _ => ⟨e3, ?_⟩, fun h => absurd h (Nat.ne_of_gt hgt)⟩
    rw [e2]; split <;> omega
  · refine ⟨_, process_serial_dec_at_one s hgt, by simp, fun h => absurd h hgt, fun h => ?_⟩
    simp [h]

/-- Witness for C7, at the start-up state, where `totalTracks = 1`. -/
theorem C7_track_count_dec_witness :
    startup_state.totalTracks < 255 ∧
    ∃ s1, process_serial startup_state (some CMD_TRACK_COUNT_DEC) = some s1 ∧
      s1.isPlaying = startup_state.isPlaying ∧
      (startup_state.totalTracks > 1 → s1.totalTracks = startup_state.totalTracks - 1 ∧
        s1.currentTrack = min startup_state.currentTrack (startup_state.totalTracks - 1)) ∧
      (startup_state.totalTracks = 1 → s1.totalTracks = 1 ∧
        s1.currentTrack = startup_state.currentTrack ∧
        s1.active_playlist = startup_state.active_playlist) :=
  ⟨by decide, C7_track_count_dec startup_state (by decide)⟩

/-- C8: from `totalTracks = 1`, `currentTrack = 1`, three `'T'` give `totalTracks = 4` with
`currentTrack` still 1, and four further `'C'` give `currentTrack = 2, 3, 4, 1` after the
successive commands (`isPlaying` and `totalTracks = 4` unchanged throughout). -/
theorem C8_scenario (s : State) (h1 : s.currentTrack = 1) (h2 : s.totalTracks = 1) :
    (run s [CMD_TRACK_COUNT_INC, CMD_TRACK_COUNT_INC, CMD_TRACK_COUNT_INC]).map playback
      = some (s.isPlaying, 1, 4) ∧
    (run s [CMD_TRACK_COUNT_INC, CMD_TRACK_COUNT_INC, CMD_TRACK_COUNT_INC,
        CMD_CURRENT_TRACK_INC]).map playback
      = some (s.isPlaying, 2, 4) ∧
    (run s [CMD_TRACK_COUNT_INC, CMD_TRACK_COUNT_INC, CMD_TRACK_COUNT_INC,
        CMD_CURRENT_TRACK_INC, CMD_CURRENT_TRACK_INC]).map playback
      = some (s.isPlaying, 3, 4) ∧
    (run s [CMD_TRACK_COUNT_INC, CMD_TRACK_COUNT_INC, CMD_TRACK_COUNT_INC,
        CMD_CURRENT_TRACK_INC, CMD_CURRENT_TRACK_INC, CMD_CURRENT_TRACK_INC]).map playback
      = some (s.isPlaying, 4, 4) ∧
    (run s [CMD_TRACK_COUNT_INC, CMD_TRACK_COUNT_INC, CMD_TRACK_COUNT_INC,
        CMD_CURRENT_TRACK_INC, CMD_CURRENT_TRACK_INC, CMD_CURRENT_TRACK_INC,
        CMD_CURRENT_TRACK_INC]).map playback
      = some (s.isPlaying, 1, 4) := by
  have hinv : PlaybackInv s := by simp [PlaybackInv, h1, h2]
  refine ⟨?_, ?_, ?_, ?_, ?_⟩ <;>
    (rw [run_playback s hinv]; simp [playback, playback_step, h1, h2])

/-- Witness for C8, at the start-up state. -/
theorem C8_scenario_witness :
    (startup_state.currentTrack = 1 ∧ startup_state.totalTracks = 1) ∧
    ((run startup_state [CMD_TRACK_COUNT_INC, CMD_TRACK_COUNT_INC,
        CMD_TRACK_COUNT_INC]).map playback
      = some (startup_state.isPlaying, 1, 4) ∧
    (run startup_state [CMD_TRACK_COUNT_INC, CMD_TRACK_COUNT_INC, CMD_TRACK_COUNT_INC,
        CMD_CURRENT_TRACK_INC]).map playback
      = some (startup_state.isPlaying, 2, 4) ∧
    (run startup_state [CMD_TRACK_COUNT_INC, CMD_TRACK_COUNT_INC, CMD_TRACK_COUNT_INC,
        CMD_CURRENT_TRACK_INC, CMD_CURRENT_TRACK_INC]).map playback
      = some (startup_state.isPlaying, 3, 4) ∧
    (run startup_state [CMD_TRACK_COUNT_INC, CMD_TRACK_COUNT_INC, CMD_TRACK_COUNT_INC,
        CMD_CURRENT_TRACK_INC, CMD_CURRENT_TRACK_INC, CMD_CURRENT_TRACK_INC]).map playback
      = some (startup_state.isPlaying, 4, 4) ∧
    (run startup_state [CMD_TRACK_COUNT_INC, CMD_TRACK_COUNT_INC, CMD_TRACK_COUNT_INC,
        CMD_CURRENT_TRACK_INC, CMD_CURRENT_TRACK_INC, CMD_CURRENT_TRACK_INC,
        CMD_CURRENT_TRACK_INC]).map playback
      = some (startup_state.isPlaying, 1, 4)) :=
  ⟨by decide, C8_scenario startup_state (by decide) (by decide)⟩

/-- C9 (as stated, refuted): in the state reached from start-up by one `'P'` the playback
state is `(isPlaying, currentTrack, totalTracks) = (1, 1, 1)`; processing `'P'` and then
`'S'` from there gives `(0, 1, 1)`, which is not the state before the `'P'`. -/
theorem C9_counterexample_when_playing :
    (run startup_state [CMD_PLAY]).map playback = some (1, 1, 1) ∧
    (run startup_state [CMD_PLAY, CMD_PLAY, CMD_PAUSE]).map playback = some (0, 1, 1) := by
  decide

/-- C9 (amended): for every playback state, `'P'` immediately followed by `'S'` is
processed, leaves `currentTrack`, `totalTracks` and the `current_index` of the playlist
untouched and ends with `isPlaying = 0`; the playback state after the pair equals the one
before the `'P'` exactly when `isPlaying` was 0 before. -/
theorem C9_play_then_pause (s : State) :
    ∃ s1 s2, process_serial s (some CMD_PLAY) = some s1 ∧
      process_serial s1 (some CMD_PAUSE) = some s2 ∧
      s2.currentTrack = s.currentTrack ∧ s2.totalTracks = s.totalTracks ∧
      s2.active_playlist.map (fun pl => pl.current_index) =
        s.active_playlist.map (fun pl => pl.current_index) ∧
      s2.isPlaying = 0 ∧
      (playback s2 = playback s ↔ s.isPlaying = 0) := by
  refine ⟨_, _, process_serial_play s, process_serial_pause _, rfl, rfl, ?_, rfl, ?_⟩
  · have h1 := playlist_set_playing_index s.active_playlist 1
    have h2 := playlist_set_playing_index (playlist_set_playing s.active_playlist 1) 0
    have key : ∀ p q : Option Playlist,
        p.map (fun pl => (pl.current_index, pl.count, pl.capacity)) =
          q.map (fun pl => (pl.current_index, pl.count, pl.capacity)) →
        p.map (fun pl => pl.current_index) = q.map (fun pl => pl.current_index) := by
      intro p q h
      cases p <;> cases q <;> simp at h ⊢
      exact h.1
    exact key _ _ (h2.trans h1)
  · simp only [playback, display_string, led_off, led_on, Prod.mk.injEq, and_true]
    exact eq_comm

/-- C2 (as stated, refuted): after twenty `'T'` from start-up `totalTracks` is 21, and
rebuilding the playlist leaves 20 entries, not 21; after a further `'V'` and `'P'` the
playback state is playing at track 21 and the rebuilt playlist has no entry with
`isPlaying` set. -/
theorem C2_counterexample_capacity :
    ((run startup_state (List.replicate 20 CMD_TRACK_COUNT_INC)).bind
        update_playlist_tracks).map
      (fun s => (s.totalTracks, s.active_playlist.map (fun pl => (entries pl).length)))
      = some (21, some 20) ∧
    ((run startup_state (List.replicate 20 CMD_TRACK_COUNT_INC ++
        [CMD_CURRENT_TRACK_DEC, CMD_PLAY])).bind update_playlist_tracks).map
      (fun s => (s.isPlaying, s.currentTrack, s.active_playlist.map
        (fun pl => ((entries pl).filter (fun t => t.isPlaying != 0)).length)))
      = some (1, 21, some 0) := by
  decide

/-- C2 (amended): in every state reached from start-up by received bytes (playlist of
capacity 20), `update_playlist_tracks` returns, changes no playback variable, and leaves
the playlist with exactly `min totalTracks 20` entries whose numbers are `1, 2, ...` in
order (hence pairwise distinct and within `1..totalTracks`); an entry has `isPlaying` set
exactly when the playback `isPlaying` is set and its number is `currentTrack`, so the
number of entries with `isPlaying` set is 1 when `isPlaying` is set and
`currentTrack ≤ 20`, and 0 otherwise. -/
theorem C2_rebuild (mem : List Track) (hmem : mem.length = 20) (bytes : List Nat) :
    ∃ s s1 pl1, run (main_startup mem) bytes = some s ∧
      update_playlist_tracks s = some s1 ∧ s1.active_playlist = some pl1 ∧
      playback s1 = playback s ∧
      (entries pl1).length = min s.totalTracks 20 ∧
      (entries pl1).map (fun t => t.number) = List.range' 1 (min s.totalTracks 20) ∧
      ((entries pl1).map (fun t => t.number)).Nodup ∧
      (∀ t, t ∈ entries pl1 → 1 ≤ t.number ∧ t.number ≤ s.totalTracks) ∧
      (∀ t, t ∈ entries pl1 →
        (t.isPlaying ≠ 0 ↔ (s.isPlaying ≠ 0 ∧ t.number = s.currentTrack))) ∧
      ((entries pl1).filter (fun t => t.isPlaying != 0)).length =
        (if s.isPlaying ≠ 0 ∧ s.currentTrack ≤ 20 then 1 else 0) := by
  obtain ⟨s, hs, hpb, pl, hpl, hsync⟩ :=
    run_system_inv bytes (main_startup mem) (main_startup_inv mem hmem)
  obtain ⟨pl1, g1, g2, g3, g4, g5, -, g7⟩ :=
    update_playlist_tracks_spec s hpb pl hpl (by rw [hsync.1, hsync.2.1])
  obtain ⟨h1, h2, h3⟩ := hpb
  obtain ⟨f1, f2, f3, f4⟩ := entries_facts s.isPlaying s.currentTrack pl1 h1 g7
  rw [hsync.1] at g4
  have hnum : (entries pl1).map (fun t => t.number) = List.range' 1 (min s.totalTracks 20) := by
    rw [f2, g4]
  refine ⟨s, _, pl1, hs, g1, rfl, rfl, by rw [f1, g4], hnum, ?_, ?_, f3, ?_⟩
  · rw [hnum]; exact List.nodup_range' 1 _
  · intro t ht
    have hm : t.number ∈ List.range' 1 (min s.totalTracks 20) := by
      rw [← hnum]; exact List.mem_map_of_mem _ ht
    rw [List.mem_range'_1] at hm
    omega
  · rw [f4, g4]
    by_cases hc : s.isPlaying ≠ 0 ∧ s.currentTrack ≤ 20
    · have : s.isPlaying ≠ 0 ∧ s.currentTrack ≤ min s.totalTracks 20 := ⟨hc.1, by omega⟩
      rw [if_pos this, if_pos hc]; rfl
    · have : ¬ (s.isPlaying ≠ 0 ∧ s.currentTrack ≤ min s.totalTracks 20) := by
        intro h; exact hc ⟨h.1, by omega⟩
      rw [if_neg this, if_neg hc]; rfl

/-- Witness for C2 (amended), for a zeroed track array and the bytes `'T'`, `'T'`, `'P'`. -/
theorem C2_rebuild_witness :
    blank_memory.length = 20 ∧
    ∃ s s1 pl1, run (main_startup blank_memory)
        [CMD_TRACK_COUNT_INC, CMD_TRACK_COUNT_INC, CMD_PLAY] = some s ∧
      update_playlist_tracks s = some s1 ∧ s1.active_playlist = some pl1 ∧
      playback s1 = playback s ∧
      (entries pl1).length = min s.totalTracks 20 ∧
      (entries pl1).map (fun t => t.number) = List.range' 1 (min s.totalTracks 20) ∧
      ((entries pl1).map (fun t => t.number)).Nodup ∧
      (∀ t, t ∈ entries pl1 → 1 ≤ t.number ∧ t.number ≤ s.totalTracks) ∧
      (∀ t, t ∈ entries pl1 →
        (t.isPlaying ≠ 0 ↔ (s.isPlaying ≠ 0 ∧ t.number = s.currentTrack))) ∧
      ((entries pl1).filter (fun t => t.isPlaying != 0)).length =
        (if s.isPlaying ≠ 0 ∧ s.currentTrack ≤ 20 then 1 else 0) :=
  ⟨by decide, C2_rebuild blank_memory (by decide)
    [CMD_TRACK_COUNT_INC, CMD_TRACK_COUNT_INC, CMD_PLAY]⟩

/-- C3 (the code at the failing input): after twenty `'T'` and one `'V'` from start-up the
playlist holds 20 entries and `current_index` is 20, not below `count`; no store has left
the array yet.  The `'P'` that follows stores through `tracks[20]`, outside the twenty
allocated slots. -/
theorem C3_current_index_reaches_count :
    (run startup_state (List.replicate 20 CMD_TRACK_COUNT_INC ++
        [CMD_CURRENT_TRACK_DEC])).map
      (fun s => s.active_playlist.map
        (fun pl => (pl.tracks.length, pl.count, pl.current_index, pl.oob)))
      = some (some (20, 20, 20, false)) ∧
    (run startup_state (List.replicate 20 CMD_TRACK_COUNT_INC ++
        [CMD_CURRENT_TRACK_DEC, CMD_PLAY])).map
      (fun s => s.active_playlist.map
        (fun pl => (pl.tracks.length, pl.count, pl.current_index, pl.oob)))
      = some (some (20, 20, 20, true)) := by
  decide

/-- C10 (as stated, refuted): after `'P'` as the first byte from start-up the playback
state is playing with `currentTrack = 1`, and the playlist has no entry at all, so no
entry numbered `currentTrack` has `isPlaying` set. -/
theorem C10_counterexample_empty_playlist :
    ∃ s pl, run startup_state [CMD_PLAY] = some s ∧ s.active_playlist = some pl ∧
      s.isPlaying = 1 ∧ s.currentTrack = 1 ∧ entries pl = [] ∧
      ¬ ∃ t, t ∈ entries pl ∧ t.number = s.currentTrack ∧ t.isPlaying ≠ 0 := by
  have h : (run startup_state [CMD_PLAY]).map
      (fun s => (s.isPlaying, s.currentTrack, s.active_playlist.map entries))
      = some (1, 1, some []) := by decide
  cases hrun : run startup_state [CMD_PLAY] with
  | none => rw [hrun] at h; cases h
  | some s =>
    rw [hrun] at h
    simp only [Option.map_some', Option.some.injEq, Prod.mk.injEq] at h
    obtain ⟨h1, h2, h3⟩ := h
    cases hpl : s.active_playlist with
    | none => rw [hpl] at h3; cases h3
    | some pl =>
      rw [hpl] at h3
      simp only [Option.map_some', Option.some.injEq] at h3
      refine ⟨s, pl, rfl, hpl, h1, h2, h3, ?_⟩
      rw [h3]
      rintro ⟨t, ht, -⟩
      cases ht

/-- C10 (amended): in every state reached from start-up by received bytes, `'P'` is
processed and afterwards `isPlaying` is 1 and an entry of the playlist has `isPlaying` set
exactly when its number is `currentTrack`; when the playlist holds track `currentTrack`
(`currentTrack ≤ count`) that entry exists and is marked.  `'S'` is processed and
afterwards `isPlaying` is 0 and no entry of the playlist has `isPlaying` set. -/
theorem C10_play_pause_marks (mem : List Track) (hmem : mem.length = 20)
    (bytes : List Nat) :
    (∃ s pl, run (main_startup mem) (bytes ++ [CMD_PLAY]) = some s ∧
      s.active_playlist = some pl ∧ s.isPlaying = 1 ∧
      (∀ t, t ∈ entries pl → (t.isPlaying ≠ 0 ↔ t.number = s.currentTrack)) ∧
      (s.currentTrack ≤ pl.count →
        ∃ t, t ∈ entries pl ∧ t.number = s.currentTrack ∧ t.isPlaying = 1)) ∧
    (∃ s pl, run (main_startup mem) (bytes ++ [CMD_PAUSE]) = some s ∧
      s.active_playlist = some pl ∧ s.isPlaying = 0 ∧
      ∀ t, t ∈ entries pl → t.isPlaying = 0) := by
  obtain ⟨s0, hs0, hinv0⟩ :=
    run_system_inv bytes (main_startup mem) (main_startup_inv mem hmem)
  constructor
  · obtain ⟨s, hs, hpb, pl, hpl, hsync⟩ := process_serial_system_inv s0 hinv0 CMD_PLAY
    have hrun : run (main_startup mem) (bytes ++ [CMD_PLAY]) = some s := by
      rw [run_append, hs0]; simp [run, hs]
    have hplay : s.isPlaying = 1 := by
      rw [process_serial_play] at hs
      cases hs; rfl
    obtain ⟨-, -, f3, f4⟩ := entries_facts s.isPlaying s.currentTrack pl hpb.1 hsync.2.2.2
    refine ⟨s, pl, hrun, hpl, hplay, ?_, ?_⟩
    · intro t ht
      rw [f3 t ht, hplay]
      simp
    · intro hc
      have hmem1 : new_track s.isPlaying s.currentTrack s.currentTrack ∈
          (entries pl).filter (fun t => t.isPlaying != 0) := by
        rw [f4, if_pos ⟨by omega, hc⟩]
        exact List.mem_singleton.mpr rfl
      refine ⟨_, (List.mem_filter.mp hmem1).1, rfl, ?_⟩
      simp [new_track, hplay]
  · obtain ⟨s, hs, hpb, pl, hpl, hsync⟩ := process_serial_system_inv s0 hinv0 CMD_PAUSE
    have hrun : run (main_startup mem) (bytes ++ [CMD_PAUSE]) = some s := by
      rw [run_append, hs0]; simp [run, hs]
    have hpause : s.isPlaying = 0 := by
      rw [process_serial_pause] at hs
      cases hs; rfl
    obtain ⟨-, -, f3, -⟩ := entries_facts s.isPlaying s.currentTrack pl hpb.1 hsync.2.2.2
    refine ⟨s, pl, hrun, hpl, hpause, ?_⟩
    intro t ht
    have := f3 t ht
    rw [hpause] at this
    by_contra hne
    exact absurd (this.mp hne).1 (by simp)

/-- Witness for C10 (amended), for a zeroed track array and the bytes `'T'`, `'T'`, `'C'`. -/
theorem C10_play_pause_marks_witness :
    blank_memory.length = 20 ∧
    ((∃ s pl, run (main_startup blank_memory)
        ([CMD_TRACK_COUNT_INC, CMD_TRACK_COUNT_INC, CMD_CURRENT_TRACK_INC] ++ [CMD_PLAY])
          = some s ∧
      s.active_playlist = some pl ∧ s.isPlaying = 1 ∧
      (∀ t, t ∈ entries pl → (t.isPlaying ≠ 0 ↔ t.number = s.currentTrack)) ∧
      (s.currentTrack ≤ pl.count →
        ∃ t, t ∈ entries pl ∧ t.number = s.currentTrack ∧ t.isPlaying = 1)) ∧
    (∃ s pl, run (main_startup blank_memory)
        ([CMD_TRACK_COUNT_INC, CMD_TRACK_COUNT_INC, CMD_CURRENT_TRACK_INC] ++ [CMD_PAUSE])
          = some s ∧
      s.active_playlist = some pl ∧ s.isPlaying = 0 ∧
      ∀ t, t ∈ entries pl → t.isPlaying = 0)) :=
  ⟨by decide, C10_play_pause_marks blank_memory (by decide)
    [CMD_TRACK_COUNT_INC, CMD_TRACK_COUNT_INC, CMD_CURRENT_TRACK_INC]⟩

/-! ## What the display and the UART receive -/

theorem display_update_loop_frames (n : Nat) (s : State) :
    (display_update_loop n s).frames = s.frames ++ List.replicate n s.displayBuffer := by
  induction n generalizing s with
  | zero => simp [display_update_loop]
  | succ n ih =>
    rw [display_update_loop, ih, List.replicate_succ]
    simp [display_update]

theorem display_update_loop_displayBuffer (n : Nat) (s : State) :
    (display_update_loop n s).displayBuffer = s.displayBuffer :=
  (display_update_loop_fields n s).2.2.2.2.1

theorem display_update_loop_PORTB (n : Nat) (s : State) :
    (display_update_loop n s).PORTB = s.PORTB :=
  (display_update_loop_fields n s).2.2.2.2.2.1

theorem display_update_loop_tx (n : Nat) (s : State) :
    (display_update_loop n s).tx = s.tx :=
  (display_update_loop_fields n s).2.2.2.2.2.2

/-- A call of `display_message` transmits nothing, leaves the LED port alone, refreshes the
display `t` times with the content of the text, and leaves the buffer with `"PLAY"` or
`"PAUS"` after `isPlaying`. -/
theorem display_message_effect (s : State) (str : List Nat) (t : Nat) :
    (display_message s str t).tx = s.tx ∧
    (display_message s str t).PORTB = s.PORTB ∧
    (display_message s str t).frames = s.frames ++ List.replicate t (encode_text str) ∧
    (display_message s str t).displayBuffer =
      encode_text (if s.isPlaying ≠ 0 then STR_PLAY else STR_PAUS) := by
  simp only [display_message]
  have hf : (display_update_loop t (display_string s str)).frames =
      s.frames ++ List.replicate t (encode_text str) := by
    rw [display_update_loop_frames]; rfl
  by_cases h : s.isPlaying ≠ 0
  · have h1 : (display_update_loop t (display_string s str)).isPlaying ≠ 0 := by simpa using h
    rw [if_pos h1, if_pos h]
    exact ⟨by simp [display_update_loop_tx], by simp [display_update_loop_PORTB], hf, rfl⟩
  · have h1 : ¬ (display_update_loop t (display_string s str)).isPlaying ≠ 0 := by simpa using h
    rw [if_neg h1, if_neg h]
    exact ⟨by simp [display_update_loop_tx], by simp [display_update_loop_PORTB], hf, rfl⟩

@[simp] theorem display_message_tx (s : State) (str : List Nat) (t : Nat) :
    (display_message s str t).tx = s.tx := (display_message_effect s str t).1

/-- A call of `send_command` transmits exactly the byte. -/
@[simp] theorem send_command_tx (s : State) (cmd : Nat) :
    (send_command s cmd).tx = s.tx ++ [cmd] := by
  simp [send_command, transmit_byte]

/-- The array `{'?', b, 0, 0, 0}` holds the text `"?"` followed by `b`, and the display
content of that text is a blank slot, the pattern of `b` (blank unless `b` is a digit, a
letter or a blank), and two blank slots. -/
theorem encode_text_unknown (b : Nat) :
    encode_text [63, b, 0, 0, 0] = encode_text [63, b] ∧
    encode_text [63, b] = [0xFF, encode_char b 0xFF, 0xFF, 0xFF] := by
  by_cases hb : b = 0
  · subst hb; decide
  · have hb1 : (b != 0) = true := by simpa using hb
    have hc1 : c_str [63, b, 0, 0, 0] = [63, b] := by
      simp [c_str, List.takeWhile, hb1]
    have hc2 : c_str [63, b] = [63, b] := by
      simp [c_str, List.takeWhile, hb1]
    have h63 : encode_char 63 0xFF = 0xFF := by decide
    constructor
    · simp only [encode_text, hc1, hc2]
    · simp only [encode_text, hc2]
      simp [List.range, List.range.loop, h63]

/-- A byte outside the twelve command bytes reaches the `default` branch. -/
theorem process_serial_unknown (s : State) (b : Nat) (hb : b ∉ COMMAND_BYTES) :
    process_serial s (some b) = some (display_message s [63, b, 0, 0, 0] 100) := by
  simp only [COMMAND_BYTES, List.mem_cons, List.mem_singleton, List.not_mem_nil, not_or,
    or_false] at hb
  obtain ⟨h1, h2, h3, h4, h5, h6, h7, h8, h9, h10, h11, h12⟩ := hb
  simp only [process_serial, h1, h2, h3, h4, h5, h6, h7, h8, h9, h10, h11, h12, if_false]

/-- C11: for every received byte that is not one of the twelve command bytes,
`process_serial` returns and leaves `isPlaying`, `currentTrack`, `totalTracks` and the
whole playlist unchanged, and transmits nothing. -/
theorem C11_unknown_byte_no_effect (s : State) (b : Nat) (hb : b ∉ COMMAND_BYTES) :
    ∃ s1, process_serial s (some b) = some s1 ∧
      s1.isPlaying = s.isPlaying ∧ s1.currentTrack = s.currentTrack ∧
      s1.totalTracks = s.totalTracks ∧ s1.active_playlist = s.active_playlist ∧
      s1.tx = s.tx :=
  ⟨_, process_serial_unknown s b hb, by simp, by simp, by simp, by simp, by simp⟩

/-- Witness for C11, at the start-up state with the byte `0x7F`. -/
theorem C11_unknown_byte_no_effect_witness :
    127 ∉ COMMAND_BYTES ∧
    ∃ s1, process_serial startup_state (some 127) = some s1 ∧
      s1.isPlaying = startup_state.isPlaying ∧ s1.currentTrack = startup_state.currentTrack ∧
      s1.totalTracks = startup_state.totalTracks ∧
      s1.active_playlist = startup_state.active_playlist ∧
      s1.tx = startup_state.tx :=
  ⟨by decide, C11_unknown_byte_no_effect startup_state 127 (by decide)⟩

/-- C12: for every byte `b` outside the twelve command bytes, `process_serial` refreshes
the display exactly 100 times, each time with the display content of the text `"?"`
followed by `b` (a blank slot for `'?'`, then the pattern of `b`), and when it returns
the display buffer holds the content of `"PLAY"` if `isPlaying` is set and of `"PAUS"`
otherwise. -/
theorem C12_unknown_byte_display (s : State) (b : Nat) (hb : b ∉ COMMAND_BYTES) :
    ∃ s1, process_serial s (some b) = some s1 ∧
      s1.frames = s.frames ++ List.replicate 100 (encode_text [63, b]) ∧
      encode_text [63, b] = [0xFF, encode_char b 0xFF, 0xFF, 0xFF] ∧
      s1.displayBuffer = encode_text (if s.isPlaying ≠ 0 then STR_PLAY else STR_PAUS) := by
  refine ⟨_, process_serial_unknown s b hb, ?_, (encode_text_unknown b).2, ?_⟩
  · rw [(display_message_effect s _ 100).2.2.1, (encode_text_unknown b).1]
  · exact (display_message_effect s _ 100).2.2.2

/-- Witness for C12, at the start-up state with the byte `0x7F`. -/
theorem C12_unknown_byte_display_witness :
    127 ∉ COMMAND_BYTES ∧
    ∃ s1, process_serial startup_state (some 127) = some s1 ∧
      s1.frames = startup_state.frames ++ List.replicate 100 (encode_text [63, 127]) ∧
      encode_text [63, 127] = [0xFF, encode_char 127 0xFF, 0xFF, 0xFF] ∧
      s1.displayBuffer =
        encode_text (if startup_state.isPlaying ≠ 0 then STR_PLAY else STR_PAUS) :=
  ⟨by decide, C12_unknown_byte_display startup_state 127 (by decide)⟩

/-! ## `buttons_check` -/

@[simp] theorem led_toggle_isPlaying (s : State) (pin : Nat) :
    (led_toggle s pin).isPlaying = s.isPlaying := rfl
@[simp] theorem led_toggle_currentTrack (s : State) (pin : Nat) :
    (led_toggle s pin).currentTrack = s.currentTrack := rfl
@[simp] theorem led_toggle_totalTracks (s : State) (pin : Nat) :
    (led_toggle s pin).totalTracks = s.totalTracks := rfl
@[simp] theorem led_toggle_active_playlist (s : State) (pin : Nat) :
    (led_toggle s pin).active_playlist = s.active_playlist := rfl
@[simp] theorem led_toggle_tx (s : State) (pin : Nat) :
    (led_toggle s pin).tx = s.tx := rfl
@[simp] theorem led_on_tx (s : State) (pin : Nat) : (led_on s pin).tx = s.tx := rfl
@[simp] theorem led_off_tx (s : State) (pin : Nat) : (led_off s pin).tx = s.tx := rfl
@[simp] theorem flash_led_briefly_isPlaying (s : State) (pin d : Nat) :
    (flash_led_briefly s pin d).isPlaying = s.isPlaying := rfl
@[simp] theorem flash_led_briefly_currentTrack (s : State) (pin d : Nat) :
    (flash_led_briefly s pin d).currentTrack = s.currentTrack := rfl
@[simp] theorem flash_led_briefly_totalTracks (s : State) (pin d : Nat) :
    (flash_led_briefly s pin d).totalTracks = s.totalTracks := rfl
@[simp] theorem flash_led_briefly_active_playlist (s : State) (pin d : Nat) :
    (flash_led_briefly s pin d).active_playlist = s.active_playlist := rfl
@[simp] theorem flash_led_briefly_tx (s : State) (pin d : Nat) :
    (flash_led_briefly s pin d).tx = s.tx := rfl

/-- While the cooldown counter is positive `buttons_check` only decrements it. -/
theorem buttons_check_cooldown (b : Buttons) (s : State) (pins : PinSamples)
    (h : b.buttonCooldown > 0) :
    buttons_check b s pins = ({ b with buttonCooldown := b.buttonCooldown - 1 }, s) := by
  simp [buttons_check, h]

/-- The function `buttons_check` changes neither the playback variables nor the playlist. -/
theorem buttons_check_frame (b : Buttons) (s : State) (pins : PinSamples) :
    playback (buttons_check b s pins).2 = playback s ∧
    (buttons_check b s pins).2.active_playlist = s.active_playlist := by
  unfold buttons_check
  dsimp only
  split_ifs <;> simp [playback]

/-- With no cooldown pending, `buttons_check` records the three levels read, starts a
cooldown of 50 calls when an edge was detected, and transmits one byte per edge. -/
theorem buttons_check_ready (b : Buttons) (s : State) (pins : PinSamples)
    (h : b.buttonCooldown = 0) :
    (buttons_check b s pins).1 =
      { lastButtonPlay := read_button pins.atPlay BUTTON_PLAY_PIN,
        lastButtonNext := read_button pins.atNext BUTTON_NEXT_PIN,
        lastButtonPrev := read_button pins.atPrev BUTTON_PREV_PIN,
        buttonCooldown :=
          if play_edge b pins || next_edge b pins || prev_edge b pins then 50 else 0 } ∧
    (buttons_check b s pins).2.tx =
      s.tx ++
        (if play_edge b pins then
          [if s.isPlaying ≠ 0 then CMD_REQUEST_PAUSE else CMD_REQUEST_PLAY] else []) ++
        (if next_edge b pins then [CMD_REQUEST_NEXT] else []) ++
        (if prev_edge b pins then [CMD_REQUEST_PREV] else []) := by
  have h0 : ¬ b.buttonCooldown > 0 := by omega
  unfold buttons_check play_edge next_edge prev_edge
  dsimp only
  rw [if_neg h0]
  split_ifs <;> simp_all

/-- Calls of `buttons_check` at which every button reads the level recorded before
transmit nothing. -/
theorem buttons_run_steady (lp ln lv : Nat) (samples : List PinSamples) :
    ∀ (b : Buttons) (s : State),
      b.lastButtonPlay = lp → b.lastButtonNext = ln → b.lastButtonPrev = lv →
      (∀ x, x ∈ samples → read_button x.atPlay BUTTON_PLAY_PIN = lp ∧
        read_button x.atNext BUTTON_NEXT_PIN = ln ∧
        read_button x.atPrev BUTTON_PREV_PIN = lv) →
      (buttons_run b s samples).2.tx = s.tx := by
  induction samples with
  | nil => intro b s _ _ _ _; rfl
  | cons x rest ih =>
    intro b s h1 h2 h3 hall
    obtain ⟨e1, e2, e3⟩ := hall x (List.mem_cons_self x rest)
    have hrest : ∀ y, y ∈ rest → read_button y.atPlay BUTTON_PLAY_PIN = lp ∧
        read_button y.atNext BUTTON_NEXT_PIN = ln ∧
        read_button y.atPrev BUTTON_PREV_PIN = lv :=
      fun y hy => hall y (List.mem_cons_of_mem x hy)
    simp only [buttons_run]
    by_cases hc : b.buttonCooldown > 0
    · rw [buttons_check_cooldown b s x hc]
      exact ih _ s h1 h2 h3 hrest
    · obtain ⟨g1, g2⟩ := buttons_check_ready b s x (by omega)
      have np : play_edge b x = false := by
        simp only [play_edge, e1, h1, decide_eq_false_iff_not]; omega
      have nn : next_edge b x = false := by
        simp only [next_edge, e2, h2, decide_eq_false_iff_not]; omega
      have nv : prev_edge b x = false := by
        simp only [prev_edge, e3, h3, decide_eq_false_iff_not]; omega
      rw [np, nn, nv] at g1 g2
      have := ih (buttons_check b s x).1 (buttons_check b s x).2
        (by rw [g1]; exact e1) (by rw [g1]; exact e2) (by rw [g1]; exact e3) hrest
      rw [this, g2]
      simp

/-! ## `potentiometer_check` -/

/-- For two values in the positive range of `int16_t` the difference computed by
`potentiometer_check` is the difference of the integers. -/
theorem net_change_exact (r b : Nat) (hr : r < 32768) (hb : b < 32768) :
    wrap_int16 (to_int16 r - to_int16 b) = (r : Int) - (b : Int) := by
  have h1 : r % 65536 = r := Nat.mod_eq_of_lt (by omega)
  have h2 : b % 65536 = b := Nat.mod_eq_of_lt (by omega)
  unfold wrap_int16 to_int16
  rw [h1, h2, if_pos hr, if_pos hb]
  omega

/-- While the cooldown counter is positive `potentiometer_check` only decrements it. -/
theorem potentiometer_check_cooldown (p : Pot) (s : State) (adc : Nat)
    (h : p.seekCooldown > 0) :
    potentiometer_check p s adc = ({ p with seekCooldown := p.seekCooldown - 1 }, s) := by
  simp [potentiometer_check, h]

/-- The function `potentiometer_check` changes neither the playback variables nor the
playlist. -/
theorem potentiometer_check_frame (p : Pot) (s : State) (adc : Nat) :
    playback (potentiometer_check p s adc).2 = playback s ∧
    (potentiometer_check p s adc).2.active_playlist = s.active_playlist := by
  unfold potentiometer_check
  dsimp only
  split_ifs <;> simp [playback]

/-- During a cooldown of at least as many calls as there are readings, the polls change
nothing but the counter. -/
theorem potentiometer_run_cooldown (rs : List Nat) :
    ∀ (p : Pot) (s : State), rs.length ≤ p.seekCooldown →
      potentiometer_run p s rs =
        ({ p with seekCooldown := p.seekCooldown - rs.length }, s) := by
  induction rs with
  | nil => intro p s _; rfl
  | cons r rest ih =>
    intro p s h
    simp only [List.length_cons] at h
    simp only [potentiometer_run]
    rw [potentiometer_check_cooldown p s r (by omega), ih _ s (by simp only; omega)]
    simp only [List.length_cons, Prod.mk.injEq, and_true]
    congr 1
    omega

/-- An initialised potentiometer with no cooldown and a reading within 9 counts of the
baseline: the call changes nothing at all. -/
theorem potentiometer_check_near (p : Pot) (s : State) (r : Nat)
    (hinit : p.potInitialized ≠ 0) (hcd : p.seekCooldown = 0) (hr : r ≤ 1023)
    (h1 : r ≤ p.baselineValue + 9) (h2 : p.baselineValue ≤ r + 9) :
    potentiometer_check p s r = (p, s) := by
  have hnet := net_change_exact r p.baselineValue (by omega) (by omega)
  have h0 : ¬ p.seekCooldown > 0 := by omega
  unfold potentiometer_check
  dsimp only
  rw [if_neg h0, if_neg hinit, hnet, if_neg (by omega)]

/-- An initialised potentiometer with no cooldown and a reading at least 10 counts away
from a baseline in the ADC range: one request byte is transmitted, `'F'` above the
baseline and `'R'` below, the baseline becomes the reading and the cooldown is 100. -/
theorem potentiometer_check_far (p : Pot) (s : State) (r : Nat)
    (hinit : p.potInitialized ≠ 0) (hcd : p.seekCooldown = 0) (hr : r ≤ 1023)
    (hb : p.baselineValue ≤ 1023)
    (hfar : p.baselineValue + 10 ≤ r ∨ r + 10 ≤ p.baselineValue) :
    (potentiometer_check p s r).1 =
      { p with baselineValue := r, seekCooldown := 100 } ∧
    (potentiometer_check p s r).2.tx =
      s.tx ++ [if p.baselineValue + 10 ≤ r then CMD_REQUEST_SEEK_FWD
        else CMD_REQUEST_SEEK_BWD] := by
  have hnet := net_change_exact r p.baselineValue (by omega) (by omega)
  have h0 : ¬ p.seekCooldown > 0 := by omega
  unfold potentiometer_check
  dsimp only
  rw [if_neg h0, if_neg hinit, hnet, if_pos (by omega)]
  refine ⟨rfl, ?_⟩
  by_cases hf : p.baselineValue + 10 ≤ r
  · rw [if_pos (by omega), if_pos hf]
    simp [display_update_loop_tx]
  · rw [if_neg (by omega), if_neg hf]
    simp [display_update_loop_tx]

/-- During a cooldown of at least as many calls as there are samples, the calls of
`buttons_check` change nothing but the counter, whatever the pins show. -/
theorem buttons_run_cooldown (samples : List PinSamples) :
    ∀ (b : Buttons) (s : State), samples.length ≤ b.buttonCooldown →
      buttons_run b s samples =
        ({ b with buttonCooldown := b.buttonCooldown - samples.length }, s) := by
  induction samples with
  | nil => intro b s _; rfl
  | cons x rest ih =>
    intro b s h
    simp only [List.length_cons] at h
    simp only [buttons_run]
    rw [buttons_check_cooldown b s x (by omega), ih _ s (by simp only; omega)]
    simp only [List.length_cons, Prod.mk.injEq, and_true]
    congr 1
    omega

/-! ## Claims on the locally originated requests -/

/-- C13: for every state, every combination of button levels and every ADC reading,
`buttons_check` and `potentiometer_check` leave `isPlaying`, `currentTrack`,
`totalTracks` and the playlist unchanged. -/
theorem C13_local_requests_frame (b : Buttons) (p : Pot) (s : State) (pins : PinSamples)
    (adc : Nat) :
    ((buttons_check b s pins).2.isPlaying = s.isPlaying ∧
      (buttons_check b s pins).2.currentTrack = s.currentTrack ∧
      (buttons_check b s pins).2.totalTracks = s.totalTracks ∧
      (buttons_check b s pins).2.active_playlist = s.active_playlist) ∧
    ((potentiometer_check p s adc).2.isPlaying = s.isPlaying ∧
      (potentiometer_check p s adc).2.currentTrack = s.currentTrack ∧
      (potentiometer_check p s adc).2.totalTracks = s.totalTracks ∧
      (potentiometer_check p s adc).2.active_playlist = s.active_playlist) := by
  obtain ⟨h1, h2⟩ := buttons_check_frame b s pins
  obtain ⟨h3, h4⟩ := potentiometer_check_frame p s adc
  simp only [playback, Prod.mk.injEq] at h1 h3
  exact ⟨⟨h1.1, h1.2.1, h1.2.2, h2⟩, ⟨h3.1, h3.2.1, h3.2.2, h4⟩⟩

/-- C14: with no cooldown pending, the bytes that one call of `buttons_check` transmits
are one byte per detected press edge, in the order play, next, previous: for a play edge
`'S'` if `isPlaying` is set and `'P'` if it is clear, for a next edge `'N'`, for a
previous edge `'B'`; a call with a single edge transmits exactly that one byte. -/
theorem C14_edge_requests (b : Buttons) (s : State) (pins : PinSamples)
    (h : b.buttonCooldown = 0) :
    (buttons_check b s pins).2.tx =
      s.tx ++
        (if play_edge b pins then
          [if s.isPlaying ≠ 0 then CMD_REQUEST_PAUSE else CMD_REQUEST_PLAY] else []) ++
        (if next_edge b pins then [CMD_REQUEST_NEXT] else []) ++
        (if prev_edge b pins then [CMD_REQUEST_PREV] else []) :=
  (buttons_check_ready b s pins h).2

/-- Witness for C14, at start-up with the play button pressed. -/
theorem C14_edge_requests_witness :
    buttons_reset.buttonCooldown = 0 ∧
    (buttons_check buttons_reset startup_state
        { atPlay := 12, atNext := 12, atPrev := 12 }).2.tx =
      startup_state.tx ++
        (if play_edge buttons_reset { atPlay := 12, atNext := 12, atPrev := 12 } then
          [if startup_state.isPlaying ≠ 0 then CMD_REQUEST_PAUSE else CMD_REQUEST_PLAY]
          else []) ++
        (if next_edge buttons_reset { atPlay := 12, atNext := 12, atPrev := 12 } then
          [CMD_REQUEST_NEXT] else []) ++
        (if prev_edge buttons_reset { atPlay := 12, atNext := 12, atPrev := 12 } then
          [CMD_REQUEST_PREV] else []) :=
  ⟨rfl, C14_edge_requests buttons_reset startup_state _ rfl⟩

/-- C15: starting with all buttons released and no cooldown pending, if one button (on
pin 1, 2 or 3) reads pressed at `n ≥ 1` consecutive calls of `buttons_check` while the
other two read released, the bytes transmitted over those calls are exactly the one
request byte of that button. -/
theorem C15_debounce (s : State) (pin : Nat)
    (hpin : pin = BUTTON_PLAY_PIN ∨ pin = BUTTON_NEXT_PIN ∨ pin = BUTTON_PREV_PIN)
    (samples : List PinSamples) (hne : samples ≠ [])
    (hheld : ∀ x, x ∈ samples → only_pressed pin x = true) :
    (buttons_run buttons_reset s samples).2.tx = s.tx ++ [request_of pin s.isPlaying] := by
  cases samples with
  | nil => exact absurd rfl hne
  | cons x rest =>
    have hall : ∀ y, y ∈ x :: rest →
        read_button y.atPlay BUTTON_PLAY_PIN = (if pin = BUTTON_PLAY_PIN then 0 else 1) ∧
        read_button y.atNext BUTTON_NEXT_PIN = (if pin = BUTTON_NEXT_PIN then 0 else 1) ∧
        read_button y.atPrev BUTTON_PREV_PIN = (if pin = BUTTON_PREV_PIN then 0 else 1) := by
      intro y hy
      have := hheld y hy
      simpa [only_pressed] using this
    obtain ⟨e1, e2, e3⟩ := hall x (List.mem_cons_self x rest)
    obtain ⟨g1, g2⟩ := buttons_check_ready buttons_reset s x rfl
    simp only [buttons_run]
    rw [buttons_run_steady _ _ _ rest (buttons_check buttons_reset s x).1
      (buttons_check buttons_reset s x).2
      (by rw [g1]; exact e1) (by rw [g1]; exact e2) (by rw [g1]; exact e3)
      (fun y hy => hall y (List.mem_cons_of_mem x hy)), g2]
    simp only [play_edge, next_edge, prev_edge, e1, e2, e3, buttons_reset, request_of]
    rcases hpin with h | h | h <;> subst h <;> simp

/-- Witness for C15: the play button held for 60 calls from start-up. -/
theorem C15_debounce_witness :
    (BUTTON_PLAY_PIN = BUTTON_PLAY_PIN ∨ BUTTON_PLAY_PIN = BUTTON_NEXT_PIN ∨
      BUTTON_PLAY_PIN = BUTTON_PREV_PIN) ∧
    List.replicate 60 ({ atPlay := 12, atNext := 12, atPrev := 12 } : PinSamples) ≠ [] ∧
    (∀ x, x ∈ List.replicate 60 ({ atPlay := 12, atNext := 12, atPrev := 12 } : PinSamples) →
      only_pressed BUTTON_PLAY_PIN x = true) ∧
    (buttons_run buttons_reset startup_state
        (List.replicate 60 { atPlay := 12, atNext := 12, atPrev := 12 })).2.tx =
      startup_state.tx ++ [request_of BUTTON_PLAY_PIN startup_state.isPlaying] :=
  ⟨Or.inl rfl, by decide, by decide,
    C15_debounce startup_state BUTTON_PLAY_PIN (Or.inl rfl) _ (by decide) (by decide)⟩

/-- C16 (as stated, refuted): from start-up the play button is pressed at one call (its
request `'P'` is sent), then released while the next button is pressed for ten calls, then
all buttons are released for 45 calls: the press of the next button is never answered,
the bytes transmitted are `'P'` alone.  Without the preceding play edge the same ten
calls send `'N'`. -/
theorem C16_counterexample_shared_cooldown :
    (buttons_run buttons_reset startup_state
        ([{ atPlay := 12, atNext := 12, atPrev := 12 }] ++
          List.replicate 10 { atPlay := 10, atNext := 10, atPrev := 10 } ++
          List.replicate 45 { atPlay := 14, atNext := 14, atPrev := 14 })).2.tx =
      startup_state.tx ++ [CMD_REQUEST_PLAY] ∧
    (buttons_run buttons_reset startup_state
        (List.replicate 10 { atPlay := 10, atNext := 10, atPrev := 10 })).2.tx =
      startup_state.tx ++ [CMD_REQUEST_NEXT] := by
  decide

/-- C16 (amended): the three buttons share one cooldown counter.  A call of
`buttons_check` with no cooldown pending that detects an edge on any button sets the
counter to 50, and during the following window of up to 50 calls `buttons_check` only
decrements the counter: whatever the pins show, nothing is transmitted or displayed and
no level is recorded, for any of the three buttons. -/
theorem C16_shared_cooldown (b : Buttons) (s : State) (pins : PinSamples)
    (h0 : b.buttonCooldown = 0)
    (hedge : (play_edge b pins || next_edge b pins || prev_edge b pins) = true)
    (window : List PinSamples) (hw : window.length ≤ 50) :
    (buttons_check b s pins).1.buttonCooldown = 50 ∧
    buttons_run (buttons_check b s pins).1 (buttons_check b s pins).2 window =
      ({ (buttons_check b s pins).1 with buttonCooldown := 50 - window.length },
        (buttons_check b s pins).2) := by
  have hcd : (buttons_check b s pins).1.buttonCooldown = 50 := by
    rw [(buttons_check_ready b s pins h0).1]
    simp only [hedge, if_true]
  refine ⟨hcd, ?_⟩
  rw [buttons_run_cooldown window _ _ (by omega), hcd]

/-- Witness for C16 (amended): a play edge at start-up, then the next button pressed
during the window. -/
theorem C16_shared_cooldown_witness :
    buttons_reset.buttonCooldown = 0 ∧
    (play_edge buttons_reset { atPlay := 12, atNext := 12, atPrev := 12 } ||
      next_edge buttons_reset { atPlay := 12, atNext := 12, atPrev := 12 } ||
      prev_edge buttons_reset { atPlay := 12, atNext := 12, atPrev := 12 }) = true ∧
    (List.replicate 10 ({ atPlay := 10, atNext := 10, atPrev := 10 } : PinSamples)).length
      ≤ 50 ∧
    (buttons_check buttons_reset startup_state
        { atPlay := 12, atNext := 12, atPrev := 12 }).1.buttonCooldown = 50 ∧
    buttons_run
        (buttons_check buttons_reset startup_state
          { atPlay := 12, atNext := 12, atPrev := 12 }).1
        (buttons_check buttons_reset startup_state
          { atPlay := 12, atNext := 12, atPrev := 12 }).2
        (List.replicate 10 { atPlay := 10, atNext := 10, atPrev := 10 }) =
      ({ (buttons_check buttons_reset startup_state
            { atPlay := 12, atNext := 12, atPrev := 12 }).1 with
          buttonCooldown :=
            50 - (List.replicate 10
              ({ atPlay := 10, atNext := 10, atPrev := 10 } : PinSamples)).length },
        (buttons_check buttons_reset startup_state
          { atPlay := 12, atNext := 12, atPrev := 12 }).2) :=
  ⟨rfl, by decide, by decide,
    C16_shared_cooldown buttons_reset startup_state _ rfl (by decide) _ (by decide)⟩

/-- C17: for an initialised potentiometer with no cooldown pending and ADC readings in
`0..1023` that all lie within 9 counts of the baseline, each single poll and the whole
sequence of polls change nothing: no byte is transmitted, the baseline stays. -/
theorem C17_within_threshold (p : Pot) (s : State) (rs : List Nat)
    (hinit : p.potInitialized ≠ 0) (hcd : p.seekCooldown = 0)
    (hall : ∀ r, r ∈ rs → r ≤ 1023 ∧ r ≤ p.baselineValue + 9 ∧ p.baselineValue ≤ r + 9) :
    (∀ r, r ∈ rs → potentiometer_check p s r = (p, s)) ∧
    potentiometer_run p s rs = (p, s) ∧
    (potentiometer_run p s rs).2.tx = s.tx ∧
    (potentiometer_run p s rs).1.baselineValue = p.baselineValue := by
  have hone : ∀ r, r ∈ rs → potentiometer_check p s r = (p, s) := by
    intro r hr
    obtain ⟨h1, h2, h3⟩ := hall r hr
    exact potentiometer_check_near p s r hinit hcd h1 h2 h3
  have hrun : potentiometer_run p s rs = (p, s) := by
    induction rs with
    | nil => rfl
    | cons r rest ih =>
      simp only [potentiometer_run]
      rw [hone r (List.mem_cons_self r rest)]
      exact ih (fun x hx => hall x (List.mem_cons_of_mem r hx))
        (fun x hx => hone x (List.mem_cons_of_mem r hx))
  exact ⟨hone, hrun, by rw [hrun], by rw [hrun]⟩

/-- Witness for C17: baseline 500 and the readings 500, 509, 491, 495. -/
theorem C17_within_threshold_witness :
    ({ baselineValue := 500, potInitialized := 1, seekCooldown := 0 } : Pot).potInitialized
      ≠ 0 ∧
    ({ baselineValue := 500, potInitialized := 1, seekCooldown := 0 } : Pot).seekCooldown
      = 0 ∧
    (∀ r, r ∈ [500, 509, 491, 495] → r ≤ 1023 ∧ r ≤ 500 + 9 ∧ 500 ≤ r + 9) ∧
    potentiometer_run { baselineValue := 500, potInitialized := 1, seekCooldown := 0 }
        startup_state [500, 509, 491, 495] =
      ({ baselineValue := 500, potInitialized := 1, seekCooldown := 0 }, startup_state) :=
  ⟨by decide, rfl, by decide,
    (C17_within_threshold { baselineValue := 500, potInitialized := 1, seekCooldown := 0 }
      startup_state [500, 509, 491, 495] (by decide) rfl (by decide)).2.1⟩

/-- C18: for an initialised potentiometer with no cooldown pending, a baseline and a
reading `r` in `0..1023`: if `r - baseline ≥ 10` exactly the byte `'F'` is transmitted, if
`r - baseline ≤ -10` exactly the byte `'R'`; in both cases the baseline becomes `r` and
the cooldown counter becomes 100, and the following polls, up to 100 of them, transmit
nothing and leave the baseline at `r` whatever they read. -/
theorem C18_seek_request (p : Pot) (s : State) (r : Nat)
    (hinit : p.potInitialized ≠ 0) (hcd : p.seekCooldown = 0) (hr : r ≤ 1023)
    (hb : p.baselineValue ≤ 1023)
    (hfar : p.baselineValue + 10 ≤ r ∨ r + 10 ≤ p.baselineValue)
    (later : List Nat) (hl : later.length ≤ 100) :
    (potentiometer_check p s r).2.tx =
      s.tx ++ [if p.baselineValue + 10 ≤ r then CMD_REQUEST_SEEK_FWD
        else CMD_REQUEST_SEEK_BWD] ∧
    (potentiometer_check p s r).1.baselineValue = r ∧
    (potentiometer_check p s r).1.seekCooldown = 100 ∧
    (potentiometer_run (potentiometer_check p s r).1 (potentiometer_check p s r).2
        later).2.tx = (potentiometer_check p s r).2.tx ∧
    (potentiometer_run (potentiometer_check p s r).1 (potentiometer_check p s r).2
        later).1.baselineValue = r := by
  obtain ⟨g1, g2⟩ := potentiometer_check_far p s r hinit hcd hr hb hfar
  have hrun := potentiometer_run_cooldown later (potentiometer_check p s r).1
    (potentiometer_check p s r).2 (by rw [g1]; exact hl)
  refine ⟨g2, by rw [g1], by rw [g1], by rw [hrun], ?_⟩
  rw [hrun, g1]

/-- Witness for C18: baseline 500, the reading 515, then the readings 600, 700, 300. -/
theorem C18_seek_request_witness :
    (({ baselineValue := 500, potInitialized := 1, seekCooldown := 0 } : Pot).potInitialized
        ≠ 0 ∧
      ({ baselineValue := 500, potInitialized := 1, seekCooldown := 0 } : Pot).seekCooldown
        = 0 ∧
      515 ≤ 1023 ∧ 500 ≤ 1023 ∧ (500 + 10 ≤ 515 ∨ 515 + 10 ≤ 500) ∧
      [600, 700, 300].length ≤ 100) ∧
    (potentiometer_check { baselineValue := 500, potInitialized := 1, seekCooldown := 0 }
        startup_state 515).2.tx =
      startup_state.tx ++ [if 500 + 10 ≤ 515 then CMD_REQUEST_SEEK_FWD
        else CMD_REQUEST_SEEK_BWD] :=
  ⟨by decide,
    (C18_seek_request { baselineValue := 500, potInitialized := 1, seekCooldown := 0 }
      startup_state 515 (by decide) rfl (by decide) (by decide) (by decide)
      [600, 700, 300] (by decide)).1⟩

/-! ## Claims on the playlist -/

/-- C19: in every state reached from start-up by received bytes the playlist has
capacity 20 and `count ≤ capacity`; rebuilding the playlist there returns, changes nothing
in the state but the playlist (no byte sent, no display output), and leaves
`count = min totalTracks capacity`, the entries being tracks `1, 2, ...` in order, so with
`totalTracks` above the capacity exactly the first 20 tracks are stored; and
`playlist_add_track` on a full playlist returns 0 and changes nothing. -/
theorem C19_capacity_bound (mem : List Track) (hmem : mem.length = 20)
    (bytes : List Nat) :
    ∃ s pl pl1, run (main_startup mem) bytes = some s ∧ s.active_playlist = some pl ∧
      pl.capacity = 20 ∧ pl.count ≤ pl.capacity ∧
      update_playlist_tracks s = some { s with active_playlist := some pl1 } ∧
      pl1.capacity = 20 ∧ pl1.count = min s.totalTracks pl1.capacity ∧
      entries pl1 = (List.range (min s.totalTracks 20)).map
        (fun k => new_track s.isPlaying s.currentTrack (k + 1)) ∧
      (20 < s.totalTracks → pl1.count = 20) ∧
      (∀ t, pl1.count = pl1.capacity →
        playlist_add_track (some pl1) (some t) = (some pl1, 0)) := by
  obtain ⟨s, hs, hpb, pl, hpl, hsync⟩ :=
    run_system_inv bytes (main_startup mem) (main_startup_inv mem hmem)
  obtain ⟨hcap, hlen, hcnt, -⟩ := hsync
  obtain ⟨pl1, g1, g2, -, g4, -, -, g7⟩ :=
    update_playlist_tracks_spec s hpb pl hpl (by rw [hcap, hlen])
  have hcap1 : pl1.capacity = 20 := by rw [g2, hcap]
  have hcount : pl1.count = min s.totalTracks 20 := by rw [g4, hcap]
  refine ⟨s, pl, pl1, hs, hpl, hcap, ?_, g1, hcap1, by rw [hcap1]; exact hcount, ?_, ?_, ?_⟩
  · rcases hcnt with h | ⟨h, -⟩ <;> omega
  · rw [entries_eq_map pl1 _ g7, hcount]
  · intro h; omega
  · intro t hfull
    simp [playlist_add_track, hfull]

/-- Witness for C19: a zeroed track array and 25 bytes `'T'`. -/
theorem C19_capacity_bound_witness :
    blank_memory.length = 20 ∧
    ∃ s pl pl1, run (main_startup blank_memory) (List.replicate 25 CMD_TRACK_COUNT_INC)
        = some s ∧ s.active_playlist = some pl ∧
      pl.capacity = 20 ∧ pl.count ≤ pl.capacity ∧
      update_playlist_tracks s = some { s with active_playlist := some pl1 } ∧
      pl1.capacity = 20 ∧ pl1.count = min s.totalTracks pl1.capacity ∧
      entries pl1 = (List.range (min s.totalTracks 20)).map
        (fun k => new_track s.isPlaying s.currentTrack (k + 1)) ∧
      (20 < s.totalTracks → pl1.count = 20) ∧
      (∀ t, pl1.count = pl1.capacity →
        playlist_add_track (some pl1) (some t) = (some pl1, 0)) :=
  ⟨by decide, C19_capacity_bound blank_memory (by decide)
    (List.replicate 25 CMD_TRACK_COUNT_INC)⟩

/-- C20: for a playlist with `2 ≤ count` (a `uint8_t`, so at most 255) and
`current_index < count`, `playlist_next_track` moves `current_index` to
`(current_index + 1) % count` and `playlist_prev_track` moves it to `current_index - 1`,
or to `count - 1` from 0; both return 1, set `display_needs_update` and change nothing
else, and each applied after the other restores the original `current_index`.  For
`count ≤ 1` both return 0 and change nothing. -/
theorem C20_next_prev (pl : Playlist) (h8 : pl.count ≤ 255) :
    (2 ≤ pl.count ∧ pl.current_index < pl.count →
      playlist_next_track (some pl) =
        (some { pl with current_index := (pl.current_index + 1) % pl.count,
                        display_needs_update := 1 }, 1) ∧
      playlist_prev_track (some pl) =
        (some { pl with
            current_index := if pl.current_index = 0 then pl.count - 1
              else pl.current_index - 1,
            display_needs_update := 1 }, 1) ∧
      (playlist_prev_track (playlist_next_track (some pl)).1).2 = 1 ∧
      (playlist_prev_track (playlist_next_track (some pl)).1).1.map
          (fun q => q.current_index) = some pl.current_index ∧
      (playlist_next_track (playlist_prev_track (some pl)).1).2 = 1 ∧
      (playlist_next_track (playlist_prev_track (some pl)).1).1.map
          (fun q => q.current_index) = some pl.current_index) ∧
    (pl.count ≤ 1 →
      playlist_next_track (some pl) = (some pl, 0) ∧
      playlist_prev_track (some pl) = (some pl, 0)) := by
  constructor
  · rintro ⟨h2, hidx⟩
    have hc : ¬ pl.count ≤ 1 := by omega
    have hlt : (pl.current_index + 1) % pl.count < pl.count := Nat.mod_lt _ (by omega)
    have hm1 : (pl.current_index + 1) % pl.count % 256 =
        (pl.current_index + 1) % pl.count := Nat.mod_eq_of_lt (by omega)
    have hm2 : (pl.count - 1) % 256 = pl.count - 1 := Nat.mod_eq_of_lt (by omega)
    have hnext : playlist_next_track (some pl) =
        (some { pl with current_index := (pl.current_index + 1) % pl.count,
                        display_needs_update := 1 }, 1) := by
      simp only [playlist_next_track, hc, if_false, hm1]
    have hprev : playlist_prev_track (some pl) =
        (some { pl with
            current_index := if pl.current_index = 0 then pl.count - 1
              else pl.current_index - 1,
            display_needs_update := 1 }, 1) := by
      simp only [playlist_prev_track, hc, if_false, hm2]
      split <;> rfl
    refine ⟨hnext, hprev, ?_, ?_, ?_, ?_⟩
    · rw [hnext]; simp only [playlist_prev_track, hc, if_false]
    · rw [hnext]; simp only [playlist_prev_track, hc, if_false, hm2, Option.map_some',
        Option.some.injEq]
      by_cases hlast : pl.current_index + 1 = pl.count
      · have : (pl.current_index + 1) % pl.count = 0 := by rw [hlast]; exact Nat.mod_self _
        simp only [this, if_true]
        omega
      · have : (pl.current_index + 1) % pl.count = pl.current_index + 1 :=
          Nat.mod_eq_of_lt (by omega)
        simp only [this]
        simp
    · rw [hprev]; simp only [playlist_next_track, hc, if_false]
    · rw [hprev]; simp only [playlist_next_track, hc, if_false, Option.map_some',
        Option.some.injEq]
      by_cases hz : pl.current_index = 0
      · simp only [hz, if_true]
        have : pl.count - 1 + 1 = pl.count := by omega
        rw [this, Nat.mod_self]
      · simp only [hz, if_false]
        have : pl.current_index - 1 + 1 = pl.current_index := by omega
        rw [this, Nat.mod_eq_of_lt hidx, Nat.mod_eq_of_lt (by omega)]
  · intro h1
    simp [playlist_next_track, playlist_prev_track, h1]

/-- Witness for C20: on a playlist of three entries positioned on the last one,
`playlist_next_track` wraps to index 0 and `playlist_prev_track` moves to index 1; on the
empty playlist of `playlist_create` both return 0. -/
theorem C20_next_prev_witness :
    (three_track_playlist.count ≤ 255 ∧ 2 ≤ three_track_playlist.count ∧
      three_track_playlist.current_index < three_track_playlist.count) ∧
    playlist_next_track (some three_track_playlist) =
      (some { three_track_playlist with
          current_index :=
            (three_track_playlist.current_index + 1) % three_track_playlist.count,
          display_needs_update := 1 }, 1) ∧
    ((playlist_create 20 blank_memory).count ≤ 255 ∧
      (playlist_create 20 blank_memory).count ≤ 1) ∧
    (playlist_next_track (some (playlist_create 20 blank_memory)) =
        (some (playlist_create 20 blank_memory), 0) ∧
      playlist_prev_track (some (playlist_create 20 blank_memory)) =
        (some (playlist_create 20 blank_memory), 0)) :=
  ⟨by decide,
    ((C20_next_prev three_track_playlist (by decide)).1 ⟨by decide, by decide⟩).1,
    by decide,
    (C20_next_prev (playlist_create 20 blank_memory) (by decide)).2 (by decide)⟩

/-! ## Round trips of the current track -/

/-- The playback triple after `k` bytes `'C'`: the current track advances cyclically. -/
theorem playback_step_inc_iter (isP tt : Nat) (htt : tt < 255) (k : Nat) :
    ∀ ct, 1 ≤ ct → ct ≤ tt →
      (List.replicate k CMD_CURRENT_TRACK_INC).foldl playback_step (isP, ct, tt) =
        (isP, (ct - 1 + k) % tt + 1, tt) := by
  induction k with
  | zero =>
    intro ct h1 h2
    have : (ct - 1 + 0) % tt = ct - 1 := Nat.mod_eq_of_lt (by omega)
    simp only [List.replicate, List.foldl, this]
    have : ct - 1 + 1 = ct := by omega
    rw [this]
  | succ k ih =>
    intro ct h1 h2
    rw [List.replicate_succ, List.foldl_cons]
    by_cases hlt : ct < tt
    · have hstep : playback_step (isP, ct, tt) CMD_CURRENT_TRACK_INC = (isP, ct + 1, tt) := by
        have hm : (ct + 1) % 256 = ct + 1 := Nat.mod_eq_of_lt (by omega)
        simp [playback_step, hlt, hm]
      rw [hstep, ih (ct + 1) (by omega) (by omega)]
      have : ct + 1 - 1 + k = ct - 1 + (k + 1) := by omega
      rw [this]
    · have hstep : playback_step (isP, ct, tt) CMD_CURRENT_TRACK_INC = (isP, 1, tt) := by
        simp [playback_step, hlt]
      rw [hstep, ih 1 (by omega) (by omega)]
      have e : ct - 1 + (k + 1) = k + tt := by omega
      have : (1 - 1 + k) % tt = (ct - 1 + (k + 1)) % tt := by
        rw [e, Nat.add_mod_right]; simp
      rw [this]

/-- C28: in a playback state with `1 ≤ currentTrack ≤ totalTracks ≤ 99`, processing `'C'`
then `'V'`, and `'V'` then `'C'`, restores `isPlaying`, `currentTrack` and `totalTracks`,
and so does processing `'C'` exactly `totalTracks` times. -/
theorem C28_inc_dec_inverse (s : State) (h1 : 1 ≤ s.currentTrack)
    (h2 : s.currentTrack ≤ s.totalTracks) (h3 : s.totalTracks ≤ 99) :
    (run s [CMD_CURRENT_TRACK_INC, CMD_CURRENT_TRACK_DEC]).map playback = some (playback s) ∧
    (run s [CMD_CURRENT_TRACK_DEC, CMD_CURRENT_TRACK_INC]).map playback = some (playback s) ∧
    (run s (List.replicate s.totalTracks CMD_CURRENT_TRACK_INC)).map playback =
      some (playback s) := by
  have hinv : PlaybackInv s := ⟨h1, h2, h3⟩
  refine ⟨?_, ?_, ?_⟩
  · rw [run_playback s hinv]
    by_cases hlt : s.currentTrack < s.totalTracks
    · have hm : (s.currentTrack + 1) % 256 = s.currentTrack + 1 := Nat.mod_eq_of_lt (by omega)
      simp [playback, playback_step, hlt, hm]
      intro h0
      omega
    · have : s.currentTrack = s.totalTracks := by omega
      simp [playback, playback_step, hlt, this]
  · rw [run_playback s hinv]
    by_cases hgt : 1 < s.currentTrack
    · have hm : (s.currentTrack - 1 + 1) % 256 = s.currentTrack := by
        have : s.currentTrack - 1 + 1 = s.currentTrack := by omega
        rw [this]; exact Nat.mod_eq_of_lt (by omega)
      have hlt : s.currentTrack - 1 < s.totalTracks := by omega
      simp [playback, playback_step, hgt, hm, hlt]
    · have : s.currentTrack = 1 := by omega
      simp [playback, playback_step, this]
  · rw [run_playback s hinv]
    simp only [playback]
    rw [playback_step_inc_iter s.isPlaying s.totalTracks (by omega) s.totalTracks
      s.currentTrack h1 h2]
    have e : (s.currentTrack - 1 + s.totalTracks) % s.totalTracks = s.currentTrack - 1 := by
      rw [Nat.add_mod_right]; exact Nat.mod_eq_of_lt (by omega)
    rw [e]
    have : s.currentTrack - 1 + 1 = s.currentTrack := by omega
    rw [this]

/-- Witness for C28, at the start-up state. -/
theorem C28_inc_dec_inverse_witness :
    (1 ≤ startup_state.currentTrack ∧ startup_state.currentTrack ≤ startup_state.totalTracks ∧
      startup_state.totalTracks ≤ 99) ∧
    (run startup_state [CMD_CURRENT_TRACK_INC, CMD_CURRENT_TRACK_DEC]).map playback =
      some (playback startup_state) :=
  ⟨by decide,
    (C28_inc_dec_inverse startup_state (by decide) (by decide) (by decide)).1⟩

/-! ## The first potentiometer poll -/

/-- C29: the first poll after `potentiometer_init` transmits nothing, whatever the
reading and the baseline sampled at initialisation; it sets the baseline to the reading
and `potInitialized` to 1, and leaves the cooldown at 0, so the next poll compares its
reading with this baseline. -/
theorem C29_first_poll (s : State) (adc0 r : Nat) :
    (potentiometer_check (potentiometer_init adc0) s r).2.tx = s.tx ∧
    (potentiometer_check (potentiometer_init adc0) s r).1.baselineValue = r ∧
    (potentiometer_check (potentiometer_init adc0) s r).1.potInitialized = 1 ∧
    (potentiometer_check (potentiometer_init adc0) s r).1.seekCooldown = 0 := by
  simp [potentiometer_check, potentiometer_init]

/-! ## The Nim move of the computer -/

/-- C30: for `sticks_remaining ≥ 1` and `max_take ≥ 1` (both `uint8_t`) and every value of
`rand()`, `calculate_computer_move` returns `m` with `1 ≤ m ≤ min max_take
sticks_remaining`, so `sticks_remaining -= m` does not underflow, and `m <
sticks_remaining` whenever `sticks_remaining ≥ 2`. -/
theorem C30_legal_move (game : GameState) (rand_value : Nat)
    (h1 : 1 ≤ game.sticks_remaining) (h2 : 1 ≤ game.max_take)
    (h3 : game.sticks_remaining ≤ 255) (h4 : game.max_take ≤ 255) :
    1 ≤ calculate_computer_move game rand_value ∧
    calculate_computer_move game rand_value ≤ min game.max_take game.sticks_remaining ∧
    calculate_computer_move game rand_value ≤ game.sticks_remaining ∧
    (2 ≤ game.sticks_remaining →
      calculate_computer_move game rand_value < game.sticks_remaining) := by
  have hr1 : game.sticks_remaining % (game.max_take + 1) < game.max_take + 1 :=
    Nat.mod_lt _ (by omega)
  have hr2 : game.sticks_remaining % (game.max_take + 1) ≤ game.sticks_remaining :=
    Nat.mod_le _ _
  have hr3 : game.sticks_remaining < game.max_take + 1 →
      game.sticks_remaining % (game.max_take + 1) = game.sticks_remaining :=
    fun h => Nat.mod_eq_of_lt h
  have hr4 : rand_value % game.max_take < game.max_take := Nat.mod_lt _ (by omega)
  unfold calculate_computer_move
  dsimp only
  generalize game.sticks_remaining % (game.max_take + 1) = rem at hr1 hr2 hr3
  generalize rand_value % game.max_take = rnd at hr4
  have hm1 : rem % 256 = rem := Nat.mod_eq_of_lt (by omega)
  have hm2 : (rnd + 1) % 256 = rnd + 1 := Nat.mod_eq_of_lt (by omega)
  have hm3 : (game.sticks_remaining - 1) % 256 = game.sticks_remaining - 1 :=
    Nat.mod_eq_of_lt (by omega)
  rw [hm1, hm2, hm3]
  split_ifs <;> omega

/-- Witness for C30: six sticks, at most three per move. -/
theorem C30_legal_move_witness :
    (1 ≤ nim_six_sticks.sticks_remaining ∧ 1 ≤ nim_six_sticks.max_take ∧
      nim_six_sticks.sticks_remaining ≤ 255 ∧ nim_six_sticks.max_take ≤ 255) ∧
    1 ≤ calculate_computer_move nim_six_sticks 7 :=
  ⟨by decide,
    (C30_legal_move nim_six_sticks 7 (by decide) (by decide) (by decide) (by decide)).1⟩

/-- With at most three sticks per move the side to move loses exactly from `n ≡ 1 (mod 4)`
sticks, for every `n` from 1 to 12: the rule "the last stick loses" as `can_force_win`
states it. -/
theorem can_force_win_three :
    ∀ n, n < 13 → 1 ≤ n → can_force_win 3 n = decide (n % 4 ≠ 1) := by
  decide

/-- C27 (the code at the failing input): with six sticks and at most three per move the
side to move can force a win (by taking one stick), `calculate_computer_move` takes two
whatever `rand()` gives, and from the four sticks that remain the opponent can force a
win. -/
theorem C27_move_not_optimal :
    can_force_win nim_six_sticks.max_take nim_six_sticks.sticks_remaining = true ∧
    (∀ r, calculate_computer_move nim_six_sticks r = 2) ∧
    can_force_win nim_six_sticks.max_take (nim_six_sticks.sticks_remaining - 2) = true ∧
    can_force_win nim_six_sticks.max_take (nim_six_sticks.sticks_remaining - 1) = false :=
  ⟨by decide, fun _ => rfl, by decide, by decide⟩

/-! ## The timer interrupt -/

/-- After `n` invocations the counter is the number of invocations modulo `2 ^ 16`. -/
theorem ISR_times_counter (n : Nat) (b : Beat) (hb : b.beat_counter < 65536) :
    (ISR_times n b).beat_counter = (b.beat_counter + n) % 65536 := by
  induction n with
  | zero => simp [ISR_times, Nat.mod_eq_of_lt hb]
  | succ n ih =>
    have hc : (ISR (ISR_times n b)).beat_counter = ((ISR_times n b).beat_counter + 1) % 65536 := by
      unfold ISR; dsimp only; split_ifs <;> rfl
    rw [ISR_times, hc, ih]
    omega

/-- The invocation that finds the counter at `c` and the flag cleared sets the flag
exactly when the new counter value is a multiple of 2000; no invocation clears a set
flag. -/
theorem ISR_flag (c : Nat) :
    ((ISR { beat_counter := c, beat_detected := 0 }).beat_detected = 1 ↔
      ((c + 1) % 65536) % 2000 = 0) ∧
    ((ISR { beat_counter := c, beat_detected := 0 }).beat_detected = 0 ↔
      ((c + 1) % 65536) % 2000 ≠ 0) ∧
    (ISR { beat_counter := c, beat_detected := 1 }).beat_detected = 1 := by
  unfold ISR
  dsimp only
  refine ⟨?_, ?_, ?_⟩
  · split_ifs <;> simp <;> omega
  · split_ifs <;> simp <;> omega
  · split_ifs <;> simp

/-- C24 (the code at the failing input): the 65536-th invocation of the interrupt service
routine since start-up sets the beat flag although 65536 is not a multiple of 2000 (the
previous beat was set by invocation 64000, 1536 ticks earlier), and the 66000-th
invocation does not set it although 66000 is a multiple of 2000. -/
theorem C24_beat_after_wrap :
    (ISR { beat_counter := (ISR_times 65535 beat_reset).beat_counter,
           beat_detected := 0 }).beat_detected = 1 ∧
    65536 % 2000 ≠ 0 ∧
    (ISR { beat_counter := (ISR_times 63999 beat_reset).beat_counter,
           beat_detected := 0 }).beat_detected = 1 ∧
    (ISR { beat_counter := (ISR_times 65999 beat_reset).beat_counter,
           beat_detected := 0 }).beat_detected = 0 ∧
    66000 % 2000 = 0 := by
  have h0 : beat_reset.beat_counter < 65536 := by decide
  refine ⟨?_, by decide, ?_, ?_, by decide⟩
  · rw [(ISR_flag _).1, ISR_times_counter 65535 beat_reset h0]; decide
  · rw [(ISR_flag _).1, ISR_times_counter 63999 beat_reset h0]; decide
  · rw [(ISR_flag _).2.1, ISR_times_counter 65999 beat_reset h0]; decide

/-! ## `map_value` -/

theorem wrap_int32_id (z : Int) (h1 : -2147483648 ≤ z) (h2 : z ≤ 2147483647) :
    wrap_int32 z = z := by
  unfold wrap_int32
  omega

/-- Without overflow, on an input inside a non-empty input range and for an ascending
output range, `map_value` is the floor of the exact proportion, shifted by `out_min`. -/
theorem map_value_exact (x in_min in_max out_min out_max : Int)
    (hlt : in_min < in_max) (hout : out_min ≤ out_max)
    (hx1 : in_min ≤ x) (hx2 : x ≤ in_max)
    (hd : in_max - in_min ≤ 2147483647)
    (hp : (in_max - in_min) * (out_max - out_min) ≤ 2147483647)
    (ho1 : -2147483648 ≤ out_min) (ho2 : out_max ≤ 2147483647) :
    map_value x in_min in_max out_min out_max =
      (x - in_min) * (out_max - out_min) / (in_max - in_min) + out_min ∧
    0 ≤ (x - in_min) * (out_max - out_min) / (in_max - in_min) ∧
    (x - in_min) * (out_max - out_min) / (in_max - in_min) ≤ out_max - out_min := by
  unfold map_value
  have ha0 : 0 ≤ x - in_min := by omega
  have ha1 : x - in_min ≤ in_max - in_min := by omega
  have hD0 : 0 ≤ out_max - out_min := by omega
  have hd1 : 0 < in_max - in_min := by omega
  generalize x - in_min = a at ha0 ha1 ⊢
  generalize hdd : in_max - in_min = d at ha1 hd hp hd1 ⊢
  generalize hDD : out_max - out_min = D at hD0 hp ⊢
  have hP0 : 0 ≤ a * D := Int.mul_nonneg ha0 hD0
  have hP1 : a * D ≤ d * D := Int.mul_le_mul_of_nonneg_right ha1 hD0
  have hDle : D ≤ d * D := by nlinarith
  have hQ0 : 0 ≤ a * D / d := Int.ediv_nonneg hP0 (by omega)
  have hQ1 : a * D / d ≤ D := by
    apply Int.ediv_le_of_le_mul hd1
    rw [Int.mul_comm D d]
    exact hP1
  refine ⟨?_, hQ0, hQ1⟩
  rw [wrap_int32_id a (by omega) (by omega), wrap_int32_id D (by omega) (by omega),
    wrap_int32_id (a * D) (by omega) (by omega), wrap_int32_id d (by omega) (by omega),
    Int.tdiv_eq_ediv hP0 (by omega), wrap_int32_id (a * D / d) (by omega) (by omega),
    wrap_int32_id _ (by omega) (by omega)]

/-- For `min_val ≤ max_val ≤ 255` and an ADC reading in `0..1023` the value returned by
`read_potentiometer_range` lies in `[min_val, max_val]`. -/
theorem read_potentiometer_range_bounds (min_val max_val adc : Nat) (hm : min_val ≤ max_val)
    (hmax : max_val ≤ 255) (hadc : adc ≤ 1023) :
    min_val ≤ read_potentiometer_range min_val max_val adc ∧
    read_potentiometer_range min_val max_val adc ≤ max_val := by
  obtain ⟨er, er0, er1⟩ := map_value_exact (adc : Int) 0 1023 (min_val : Int) (max_val : Int)
    (by omega) (by omega) (by omega) (by omega) (by omega) (by omega) (by omega) (by omega)
  unfold read_potentiometer_range
  rw [er]
  generalize ((adc : Int) - 0) * ((max_val : Int) - (min_val : Int)) / (1023 - 0) = q
    at er0 er1 ⊢
  clear er
  omega

/-- C21: for `int32_t` arguments with `in_min < in_max`, `out_min ≤ out_max`,
`in_min ≤ x ≤ y ≤ in_max` and no overflow (the input span and its product with the output
span fit 32 bits), `map_value` at `x` lies in `[out_min, out_max]`, is `out_min` at
`in_min` and `out_max` at `in_max`, and is at most its value at `y`; and for
`min_val ≤ max_val` (both `uint8_t`) `read_potentiometer_range` returns a value in
`[min_val, max_val]` for every ADC reading in `0..1023`. -/
theorem C21_map_value (x y in_min in_max out_min out_max : Int)
    (hlt : in_min < in_max) (hout : out_min ≤ out_max)
    (hx1 : in_min ≤ x) (hxy : x ≤ y) (hy2 : y ≤ in_max)
    (hd : in_max - in_min ≤ 2147483647)
    (hp : (in_max - in_min) * (out_max - out_min) ≤ 2147483647)
    (ho1 : -2147483648 ≤ out_min) (ho2 : out_max ≤ 2147483647)
    (min_val max_val adc : Nat) (hm : min_val ≤ max_val) (hmax : max_val ≤ 255)
    (hadc : adc ≤ 1023) :
    out_min ≤ map_value x in_min in_max out_min out_max ∧
    map_value x in_min in_max out_min out_max ≤ out_max ∧
    map_value in_min in_min in_max out_min out_max = out_min ∧
    map_value in_max in_min in_max out_min out_max = out_max ∧
    map_value x in_min in_max out_min out_max ≤ map_value y in_min in_max out_min out_max ∧
    min_val ≤ read_potentiometer_range min_val max_val adc ∧
    read_potentiometer_range min_val max_val adc ≤ max_val := by
  have hx2 : x ≤ in_max := Int.le_trans hxy hy2
  have hy1 : in_min ≤ y := Int.le_trans hx1 hxy
  have hne : in_max - in_min ≠ 0 := Int.ne_of_gt (Int.sub_pos_of_lt hlt)
  obtain ⟨ex, ex0, ex1⟩ := map_value_exact x in_min in_max out_min out_max hlt hout hx1
    hx2 hd hp ho1 ho2
  obtain ⟨ey, -, -⟩ := map_value_exact y in_min in_max out_min out_max hlt hout hy1
    hy2 hd hp ho1 ho2
  obtain ⟨elo, -, -⟩ := map_value_exact in_min in_min in_max out_min out_max hlt hout
    (Int.le_refl _) (Int.le_of_lt hlt) hd hp ho1 ho2
  obtain ⟨ehi, -, -⟩ := map_value_exact in_max in_min in_max out_min out_max hlt hout
    (Int.le_of_lt hlt) (Int.le_refl _) hd hp ho1 ho2
  have hmono : (x - in_min) * (out_max - out_min) / (in_max - in_min) ≤
      (y - in_min) * (out_max - out_min) / (in_max - in_min) := by
    apply Int.ediv_le_ediv (Int.sub_pos_of_lt hlt)
    exact Int.mul_le_mul_of_nonneg_right (Int.sub_le_sub_right hxy _)
      (Int.sub_nonneg_of_le hout)
  refine ⟨?_, ?_, ?_, ?_, ?_, read_potentiometer_range_bounds min_val max_val adc hm hmax hadc⟩
  · rw [ex]; linarith
  · rw [ex]; linarith
  · rw [elo]; simp
  · rw [ehi, Int.mul_ediv_cancel_left _ hne]; linarith
  · rw [ex, ey]; linarith

/-- Witness for C21: the ranges of the Nim configuration, `0..1023` onto `21..99`. -/
theorem C21_map_value_witness :
    ((0 : Int) < 1023 ∧ (21 : Int) ≤ 99 ∧ (0 : Int) ≤ 512 ∧ (512 : Int) ≤ 800 ∧
      (800 : Int) ≤ 1023 ∧ 21 ≤ 99 ∧ 99 ≤ 255 ∧ 512 ≤ 1023) ∧
    21 ≤ map_value 512 0 1023 21 99 ∧
    map_value 512 0 1023 21 99 ≤ 99 ∧
    map_value 0 0 1023 21 99 = 21 ∧
    map_value 1023 0 1023 21 99 = 99 ∧
    map_value 512 0 1023 21 99 ≤ map_value 800 0 1023 21 99 ∧
    21 ≤ read_potentiometer_range 21 99 512 ∧
    read_potentiometer_range 21 99 512 ≤ 99 :=
  ⟨by decide,
    C21_map_value 512 800 0 1023 21 99 (by decide) (by decide) (by decide) (by decide)
      (by decide) (by decide) (by decide) (by decide) (by decide) 21 99 512 (by decide)
      (by decide) (by decide)⟩

/-! ## `parseTimeString` -/

/-- C22 (counterexample): the six-character string "12:34X" is not of the form "MM:SS",
yet `parseTimeString` returns 1 on it, with 12 and 34 stored. -/
theorem C22_trailing_characters_accepted :
    parseTimeString [49, 50, 58, 51, 52, 88, 0] 0 0 = (1, 12, 34) ∧
    (c_str [49, 50, 58, 51, 52, 88, 0]).length = 6 := by
  decide

/-- C22 (amended): `parseTimeString` returns 1 exactly when the string has at least five
characters of which the first five are digit, digit, colon, digit, digit and the second
digit pair is at most 59; then the outputs hold the decimal values of the two digit pairs
(minutes at most 99, seconds at most 59); in every other case it returns 0. -/
theorem C22_parse_time_string (timeStr : List Nat) (m0 s0 : Nat) :
    ((parseTimeString timeStr m0 s0).1 = 1 ↔
      (5 ≤ (c_str timeStr).length ∧
        isdigit ((c_str timeStr).getD 0 0) = true ∧ isdigit ((c_str timeStr).getD 1 0) = true ∧
        (c_str timeStr).getD 2 0 = 58 ∧
        isdigit ((c_str timeStr).getD 3 0) = true ∧ isdigit ((c_str timeStr).getD 4 0) = true ∧
        ((c_str timeStr).getD 3 0 - 48) * 10 + ((c_str timeStr).getD 4 0 - 48) ≤ 59)) ∧
    ((parseTimeString timeStr m0 s0).1 = 1 →
      (parseTimeString timeStr m0 s0).2.1 =
        ((c_str timeStr).getD 0 0 - 48) * 10 + ((c_str timeStr).getD 1 0 - 48) ∧
      (parseTimeString timeStr m0 s0).2.2 =
        ((c_str timeStr).getD 3 0 - 48) * 10 + ((c_str timeStr).getD 4 0 - 48) ∧
      (parseTimeString timeStr m0 s0).2.1 ≤ 99 ∧ (parseTimeString timeStr m0 s0).2.2 ≤ 59) ∧
    ((parseTimeString timeStr m0 s0).1 ≠ 1 → (parseTimeString timeStr m0 s0).1 = 0) := by
  unfold parseTimeString
  simp only [isdigit]
  generalize (c_str timeStr).getD 0 0 = d0
  generalize (c_str timeStr).getD 1 0 = d1
  generalize (c_str timeStr).getD 2 0 = d2
  generalize (c_str timeStr).getD 3 0 = d3
  generalize (c_str timeStr).getD 4 0 = d4
  generalize (c_str timeStr).length = n
  split_ifs with h1 h2 h3 h4 <;> simp at *
  · omega
  · omega
  · omega
  · have e1 : ((d0 - 48) * 10 + (d1 - 48)) % 256 = (d0 - 48) * 10 + (d1 - 48) :=
      Nat.mod_eq_of_lt (by omega)
    have e2 : ((d3 - 48) * 10 + (d4 - 48)) % 256 = (d3 - 48) * 10 + (d4 - 48) :=
      Nat.mod_eq_of_lt (by omega)
    rw [e1, e2] at h4
    omega
  · have e1 : ((d0 - 48) * 10 + (d1 - 48)) % 256 = (d0 - 48) * 10 + (d1 - 48) :=
      Nat.mod_eq_of_lt (by omega)
    have e2 : ((d3 - 48) * 10 + (d4 - 48)) % 256 = (d3 - 48) * 10 + (d4 - 48) :=
      Nat.mod_eq_of_lt (by omega)
    rw [e1, e2] at h4 ⊢
    omega

/-! ## The main poll loop -/

/-- C25 (counterexample): with the potentiometer turned and a byte waiting in the UART, the
loop body sends the seek command before the reply to the received byte, whereas the
composition in the stated order (UART poll before potentiometer poll) sends them the other
way round. -/
theorem C25_uart_after_potentiometer :
    (main_loop_body polled_controller turned_and_received).map (fun c => c.s.tx) =
      some [81, 70, 81] ∧
    (spec_loop_body polled_controller turned_and_received).map (fun c => c.s.tx) =
      some [81, 81, 70] := by
  decide

/-- C25 (amended): the loop body is the sequential composition of display refresh, button
edge detection, potentiometer poll, UART poll (at most one byte), beat-flag check and
playlist dirty-check, in that order. -/
theorem C25_poll_order (c : Controller) (inp : LoopInputs) :
    main_loop_body c inp =
      compose_steps
        [step_display, step_buttons, step_potentiometer, step_uart, step_beat, step_playlist]
        c inp := by
  simp only [main_loop_body, loop_until_dirty_check, compose_steps, List.foldl, step_display,
    step_buttons, step_potentiometer, step_uart, step_beat, step_playlist, Option.bind,
    Option.map]
  cases h : process_serial (potentiometer_check c.pot
    (buttons_check c.buttons (display_update c.s) inp.pins).2 inp.adc).2 inp.rx with
  | none => rfl
  | some s4 =>
    simp only []
    split_ifs <;> rfl

/-! ## `playlist_check_update` -/

/-- The dirty-check while the current index addresses a slot of the track array: with the
flag clear nothing changes; with the flag set on a non-empty playlist the flag is cleared,
no other playlist field changes, nothing is transmitted and the label "TR" followed by the
number of the addressed entry is shown for 200 refresh cycles; a second call right after
the first changes nothing. -/
theorem playlist_check_update_spec (s : State) (pl : Playlist) (stray stray2 : Nat)
    (hp : s.active_playlist = some pl) :
    (pl.display_needs_update = 0 → playlist_check_update s stray = s) ∧
    (∀ t, pl.display_needs_update ≠ 0 → pl.count ≠ 0 →
      pl.tracks[pl.current_index]? = some t →
      (playlist_check_update s stray).frames =
        s.frames ++ List.replicate 200 (encode_text ([84, 82] ++ fmt02d t.number))) ∧
    ((playlist_check_update s stray).active_playlist =
      some { pl with display_needs_update := 0 }) ∧
    (playlist_check_update s stray).tx = s.tx ∧
    playlist_check_update (playlist_check_update s stray) stray2 =
      playlist_check_update s stray := by
  have hact : (playlist_check_update s stray).active_playlist =
      some { pl with display_needs_update := 0 } := by
    unfold playlist_check_update
    rw [hp]
    dsimp only
    split_ifs with h1 h2
    · rw [hp, ← h1]
    · rfl
    · simp
  refine ⟨?_, ?_, hact, ?_, ?_⟩
  · intro h0
    unfold playlist_check_update
    rw [hp]
    simp [h0]
  · intro t h1 h2 ht
    unfold playlist_check_update
    rw [hp]
    simp only [h1, h2, ht, if_false]
    exact (display_message_effect _ _ _).2.2.1
  · unfold playlist_check_update
    rw [hp]
    dsimp only
    split_ifs <;> simp
  · generalize playlist_check_update s stray = s1 at hact ⊢
    unfold playlist_check_update
    rw [hact]
    simp

/-- The dirty-check while the current index lies beyond the track array: the number shown
after "TR" is the byte `stray` found there. -/
theorem playlist_check_update_outside (s : State) (pl : Playlist) (stray : Nat)
    (hp : s.active_playlist = some pl) (h1 : pl.display_needs_update ≠ 0)
    (h2 : pl.count ≠ 0) (h3 : pl.tracks.length ≤ pl.current_index) :
    (playlist_check_update s stray).frames =
      s.frames ++ List.replicate 200 (encode_text ([84, 82] ++ fmt02d stray)) := by
  have hn : pl.tracks[pl.current_index]? = none := List.getElem?_eq_none h3
  unfold playlist_check_update
  rw [hp]
  simp only [h1, h2, hn, if_false]
  exact (display_message_effect _ _ _).2.2.1

/-- C26 (the code at the failing input): after twenty `'T'` and one `'V'`, each received
in a loop iteration of its own, the `'P'` of the next iteration leaves `current_track` at
21 and the playlist dirty with 20 entries in 20 slots and `current_index = 20`; the
`playlist_check_update` of that iteration then reads the number from beyond the array, so
the label shown for 200 refresh cycles is "TR" followed by whatever byte lies there ("TR00"
over a zero byte), which differs from "TR21" unless that byte happens to be 21. -/
theorem C26_label_read_outside_array :
    ∃ c c5 pl,
      loop_run startup_controller ((List.replicate 20 CMD_TRACK_COUNT_INC ++
        [CMD_CURRENT_TRACK_DEC]).map (fun b => received b 0)) = some c ∧
      (∀ stray, loop_until_dirty_check c (received CMD_PLAY stray) = some c5) ∧
      c5.s.active_playlist = some pl ∧
      c5.s.currentTrack = 21 ∧ pl.display_needs_update = 1 ∧ pl.count = 20 ∧
      pl.current_index = 20 ∧ pl.tracks.length = 20 ∧
      (∀ stray, (main_loop_body c (received CMD_PLAY stray)).map (fun c6 => c6.s.frames) =
        some (c5.s.frames ++ List.replicate 200 (encode_text ([84, 82] ++ fmt02d stray)))) ∧
      encode_text ([84, 82] ++ fmt02d 0) ≠ encode_text ([84, 82] ++ fmt02d 21) := by
  have h : ((loop_run startup_controller ((List.replicate 20 CMD_TRACK_COUNT_INC ++
        [CMD_CURRENT_TRACK_DEC]).map (fun b => received b 0))).bind
        (fun c => loop_until_dirty_check c (received CMD_PLAY 0))).map
      (fun c5 => (c5.s.currentTrack, c5.s.active_playlist.map
        (fun pl => (pl.display_needs_update, pl.count, pl.current_index, pl.tracks.length))))
      = some (21, some (1, 20, 20, 20)) := by decide
  cases hrun : loop_run startup_controller ((List.replicate 20 CMD_TRACK_COUNT_INC ++
      [CMD_CURRENT_TRACK_DEC]).map (fun b => received b 0)) with
  | none => rw [hrun] at h; cases h
  | some c =>
    rw [hrun] at h
    simp only [Option.some_bind] at h
    cases h5 : loop_until_dirty_check c (received CMD_PLAY 0) with
    | none => rw [h5] at h; cases h
    | some c5 =>
      rw [h5] at h
      simp only [Option.map_some', Option.some.injEq, Prod.mk.injEq] at h
      obtain ⟨h1, h2⟩ := h
      cases hpl : c5.s.active_playlist with
      | none => rw [hpl] at h2; cases h2
      | some pl =>
        rw [hpl] at h2
        simp only [Option.map_some', Option.some.injEq, Prod.mk.injEq] at h2
        obtain ⟨h3, h4, h6, h7⟩ := h2
        have hall : ∀ stray, loop_until_dirty_check c (received CMD_PLAY stray) = some c5 :=
          fun stray => h5
        refine ⟨c, c5, pl, rfl, hall, hpl, h1, h3, h4, h6, h7, ?_, by decide⟩
        intro stray
        rw [main_loop_body, hall stray]
        simp only [Option.map_some', Option.some.injEq]
        exact playlist_check_update_outside c5.s pl stray hpl (by omega) (by omega) (by omega)

/-! ## `random_int_range` -/

theorem wrap_int_id (bits : Nat) (z : Int) (h1 : -2 ^ (bits - 1) ≤ z)
    (h2 : z < 2 ^ (bits - 1)) : wrap_int bits z = z := by
  unfold wrap_int
  generalize (2 : Int) ^ (bits - 1) = H at h1 h2 ⊢
  rw [Int.emod_eq_of_lt (by omega) (by omega)]
  omega

/-- A value accepted by the rejection loop is below the limit. -/
theorem rejection_loop_accepts (limit now fuel : Nat) (st st1 : random_state_t) (r : Nat)
    (h : rejection_loop limit now fuel st = some (r, st1)) : r < limit := by
  induction fuel generalizing st with
  | zero => simp [rejection_loop] at h
  | succ n ih =>
    rw [rejection_loop] at h
    split_ifs at h with hge
    · exact ih _ h
    · simp only [Option.some.injEq] at h
      rw [h] at hge
      simpa using hge

/-- With fuel the rejection loop returns the first draw when that draw is below the
limit. -/
theorem rejection_loop_first (limit now fuel : Nat) (st : random_state_t)
    (h : (random_uint64 st now).1 < limit) :
    rejection_loop limit now (fuel + 1) st = some (random_uint64 st now) := by
  rw [rejection_loop, if_neg (by omega)]

/-- The bounds of `random_int_range` for ordered arguments. -/
theorem random_int_range_ordered (int_bits : Nat) (hb : int_bits ≤ 64) (lo hi : Int)
    (r scale0 : Nat)
    (hlo : -2 ^ (int_bits - 1) ≤ lo) (hhi : hi < 2 ^ (int_bits - 1)) (hle : lo ≤ hi)
    (hd : hi - lo < 2 ^ (int_bits - 1))
    (hs : scale0 = 0xFFFFFFFFFFFFFFFF /
      (((wrap_int int_bits (hi - lo) % 18446744073709551616).toNat + 1) % UINT64_MOD))
    (hr : r < ((((wrap_int int_bits (hi - lo) % 18446744073709551616).toNat + 1) % UINT64_MOD)
      * scale0) % UINT64_MOD) :
    lo ≤ wrap_int int_bits (lo + wrap_int int_bits ((r / scale0 : Nat) : Int)) ∧
    wrap_int int_bits (lo + wrap_int int_bits ((r / scale0 : Nat) : Int)) ≤ hi := by
  have hH : (2 : Int) ^ (int_bits - 1) ≤ 2 ^ 63 :=
    pow_le_pow_right₀ (by norm_num) (by omega)
  have hH0 : (0 : Int) < 2 ^ (int_bits - 1) := by positivity
  rw [wrap_int_id int_bits (hi - lo) (by omega) hd] at hs hr
  generalize hHd : (2 : Int) ^ (int_bits - 1) = H at *
  norm_num at hH
  obtain ⟨n, hn⟩ : ∃ n : Nat, hi - lo = (n : Int) := ⟨(hi - lo).toNat, by omega⟩
  rw [hn] at hs hr hd
  have e1 : (((n : Int) % 18446744073709551616).toNat + 1) % UINT64_MOD = n + 1 := by
    unfold UINT64_MOD
    omega
  rw [e1] at hs hr
  have hmul : (n + 1) * scale0 ≤ 0xFFFFFFFFFFFFFFFF := by
    rw [hs]
    exact Nat.mul_div_le _ _
  have e2 : ((n + 1) * scale0) % UINT64_MOD = (n + 1) * scale0 := by
    unfold UINT64_MOD
    omega
  rw [e2] at hr
  have hq : r / scale0 < n + 1 := Nat.div_lt_of_lt_mul (by rw [Nat.mul_comm]; exact hr)
  generalize r / scale0 = q at hq
  clear e1 e2 hmul hr hs
  rw [wrap_int_id int_bits (q : Int) (by rw [hHd]; omega) (by rw [hHd]; omega),
    wrap_int_id int_bits (lo + q) (by rw [hHd]; omega) (by rw [hHd]; omega)]
  omega

/-- C23: for an `int` of at most 64 bits, every generator state and all `int` values `min`
and `max` (in either order) whose difference does not overflow, whenever the rejection loop
accepts a value and `random_int_range` returns `v`, then `lo ≤ v ≤ hi` for the smaller and
the larger bound. -/
theorem C23_random_int_range (int_bits fuel : Nat) (st st1 : random_state_t) (now : Nat)
    (min max v : Int) (hb : int_bits ≤ 64)
    (hmin1 : -2 ^ (int_bits - 1) ≤ min) (hmin2 : min < 2 ^ (int_bits - 1))
    (hmax1 : -2 ^ (int_bits - 1) ≤ max) (hmax2 : max < 2 ^ (int_bits - 1))
    (hd1 : max - min < 2 ^ (int_bits - 1)) (hd2 : min - max < 2 ^ (int_bits - 1))
    (h : random_int_range int_bits fuel st now min max = some (v, st1)) :
    (if min > max then max else min) ≤ v ∧ v ≤ (if min > max then min else max) := by
  unfold random_int_range at h
  dsimp only at h
  generalize hlo : (if min > max then max else min) = lo at h ⊢
  generalize hhi : (if min > max then min else max) = hi at h ⊢
  have hfacts : -2 ^ (int_bits - 1) ≤ lo ∧ hi < 2 ^ (int_bits - 1) ∧ lo ≤ hi ∧
      hi - lo < 2 ^ (int_bits - 1) := by
    generalize (2 : Int) ^ (int_bits - 1) = H at *
    split_ifs at hlo hhi <;> omega
  obtain ⟨f1, f2, f3, f4⟩ := hfacts
  cases hrl : rejection_loop
      (((((wrap_int int_bits (hi - lo) % 18446744073709551616).toNat + 1) % UINT64_MOD) *
        (0xFFFFFFFFFFFFFFFF /
          (((wrap_int int_bits (hi - lo) % 18446744073709551616).toNat + 1) % UINT64_MOD))) %
        UINT64_MOD) now fuel st with
  | none => rw [hrl] at h; cases h
  | some p =>
    obtain ⟨r, st2⟩ := p
    rw [hrl] at h
    simp only [Option.some.injEq, Prod.mk.injEq] at h
    have hr := rejection_loop_accepts _ _ _ _ _ _ hrl
    have := random_int_range_ordered int_bits hb lo hi r _ f1 f2 f3 f4 rfl hr
    rw [h.1] at this
    exact this

/-- Witness for C23: a generator seeded with 42 returns 3 for the range 3..9 on a 16-bit
`int`. -/
theorem C23_random_int_range_witness :
    random_int_range 16 10 (random_init_with_seed 42) 0 3 9 =
      some (3, (random_uint64 (random_init_with_seed 42) 0).2) ∧
    (if (3 : Int) > 9 then (9 : Int) else 3) ≤ 3 ∧
    (3 : Int) ≤ (if (3 : Int) > 9 then (3 : Int) else 9) :=
  ⟨by decide,
    C23_random_int_range 16 10 (random_init_with_seed 42)
      (random_uint64 (random_init_with_seed 42) 0).2 0 3 9 3
      (by decide) (by decide) (by decide) (by decide) (by decide) (by decide) (by decide)
      (by decide)⟩

end DJController
